import Mathlib

/-!
Verification development for the time-synchronized audio playback engine of
the Sendspin CLI (src/sendspin/audio.py, class AudioPlayer).

The Python code is shallowly embedded as follows:
* Python ints are `Int` (byte counts, frame counts and list indices are `Nat`);
  Python floor division `//` is `Int.fdiv` and `%` is `Int.fmod`.
* Python floats (the DAC/loop slope, the filtered sync error, the correction
  rates) are modelled exactly by `Rat`; `int(x)` on a float is truncation
  toward zero (`ratTrunc`) and `round(x)` is round-half-to-even (`pythonRound`).
* `bytes` buffers are `List Nat`; `asyncio.Queue` is a FIFO `List QueuedChunk`
  (head is the next chunk out); the `deque(maxlen=100)` of calibration pairs
  is kept most-recent-first (`calibAppend`), so Python's `[-1]` is the head.
* The two external clock-mapping functions `compute_client_time` and
  `compute_server_time` are the fields of a `TimeEnv` parameter, and each
  read of `loop.time()` inside one call is a `nowUs` parameter.
* The 1-D Kalman filter `SendspinTimeFilter` lives in the external aiosendspin
  package, not in this repository; `_smooth_sync_error` is therefore modelled
  by an oracle parameter `filteredErr` giving the posterior offset the filter
  returns for this update.  All theorems below quantify over that oracle.
* Logging, the log rate-limiting fields, the callback-time accounting and the
  sounddevice stream object are omitted; `_stream_started` is kept as a flag.
  The drop/insert counters `_frames_dropped_since_log` and
  `_frames_inserted_since_log` are kept, as they count correction events.
* Deterministic single-thread interleaving: an execution is a list of
  `PlayerEvent`s (submit calls and audio callbacks) applied in order.
-/

/-- PCM sample format descriptor (the fields of aiosendspin's PCMFormat that
`AudioPlayer` reads: channel count, sample rate in Hz, frame size in bytes). -/
structure PCMFormat where
  channels : Nat
  sample_rate : Nat
  frame_size : Nat
deriving Repr, DecidableEq

/-- Playback state machine of `AudioPlayer` (class PlaybackState). -/
inductive PlaybackState where
  | INITIALIZING
  | WAITING_FOR_START
  | PLAYING
  | REANCHORING
deriving Repr, DecidableEq

/-- A queued audio chunk (`_QueuedChunk`): server timestamp of its first frame
and raw PCM bytes. -/
structure QueuedChunk where
  server_timestamp_us : Int
  audio_data : List Nat
deriving Repr, DecidableEq

/-- The external time-synchronization collaborators: `compute_client_time`
maps a server timestamp to a monotonic loop time and `compute_server_time` is
its inverse. -/
structure TimeEnv where
  computeClientTime : Int → Int
  computeServerTime : Int → Int

/-- The mutable state of `AudioPlayer` (the fields of `__init__` that are read
anywhere; logging-only fields are omitted). -/
structure AudioPlayer where
  format : Option PCMFormat
  queue : List QueuedChunk
  streamStarted : Bool
  volume : Int
  muted : Bool
  currentChunk : Option QueuedChunk
  currentChunkOffset : Nat
  expectedNextTimestamp : Option Int
  queuedDurationUs : Int
  dacLoopCalibrations : List (Int × Int)
  lastKnownPlaybackPositionUs : Int
  lastDacCalibrationTimeUs : Int
  playbackState : PlaybackState
  scheduledStartLoopTimeUs : Option Int
  scheduledStartDacTimeUs : Option Int
  serverTsCursorUs : Int
  serverTsCursorRemainder : Int
  firstServerTimestampUs : Option Int
  earlyStartSuspect : Bool
  hasReanchored : Bool
  insertEveryNFrames : Nat
  dropEveryNFrames : Nat
  framesUntilNextInsert : Int
  framesUntilNextDrop : Int
  lastOutputFrame : List Nat
  syncErrorFilteredUs : Rat
  lastReanchorLoopTimeUs : Int
  framesInsertedSinceLog : Nat
  framesDroppedSinceLog : Nat
  clearRequested : Bool
deriving Repr, DecidableEq

/-- The state built by `AudioPlayer.__init__` followed by `set_format`
(`set_format` installs the format and resets `_stream_started`). -/
def initPlayer (fmt : Option PCMFormat) : AudioPlayer where
  format := fmt
  queue := []
  streamStarted := false
  volume := 100
  muted := false
  currentChunk := none
  currentChunkOffset := 0
  expectedNextTimestamp := none
  queuedDurationUs := 0
  dacLoopCalibrations := []
  lastKnownPlaybackPositionUs := 0
  lastDacCalibrationTimeUs := 0
  playbackState := .INITIALIZING
  scheduledStartLoopTimeUs := none
  scheduledStartDacTimeUs := none
  serverTsCursorUs := 0
  serverTsCursorRemainder := 0
  firstServerTimestampUs := none
  earlyStartSuspect := false
  hasReanchored := false
  insertEveryNFrames := 0
  dropEveryNFrames := 0
  framesUntilNextInsert := 0
  framesUntilNextDrop := 0
  lastOutputFrame := []
  syncErrorFilteredUs := 0
  lastReanchorLoopTimeUs := 0
  framesInsertedSinceLog := 0
  framesDroppedSinceLog := 0
  clearRequested := false

/-- `AudioPlayer.clear`: drop all queued audio and reset playback state.
Format, volume, mute and `_stream_started` are untouched.  Note that it also
resets `_last_reanchor_loop_time_us` to 0. -/
def AudioPlayer.clear (s : AudioPlayer) : AudioPlayer :=
  { s with
    clearRequested := false
    queue := []
    playbackState := .INITIALIZING
    currentChunk := none
    currentChunkOffset := 0
    expectedNextTimestamp := none
    queuedDurationUs := 0
    dacLoopCalibrations := []
    lastKnownPlaybackPositionUs := 0
    lastDacCalibrationTimeUs := 0
    scheduledStartLoopTimeUs := none
    scheduledStartDacTimeUs := none
    serverTsCursorUs := 0
    serverTsCursorRemainder := 0
    firstServerTimestampUs := none
    earlyStartSuspect := false
    hasReanchored := false
    insertEveryNFrames := 0
    dropEveryNFrames := 0
    framesUntilNextInsert := 0
    framesUntilNextDrop := 0
    lastOutputFrame := []
    syncErrorFilteredUs := 0
    lastReanchorLoopTimeUs := 0
    framesInsertedSinceLog := 0
    framesDroppedSinceLog := 0 }

/-- `AudioPlayer.set_volume`: clamp the requested volume into [0, 100] and
store the mute flag. -/
def AudioPlayer.set_volume (s : AudioPlayer) (volume : Int) (muted : Bool) :
    AudioPlayer :=
  { s with volume := max 0 (min 100 volume), muted := muted }

/-- Python `int(x)` on a float value: truncation toward zero. -/
def ratTrunc (q : Rat) : Int :=
  if 0 ≤ q then ⌊q⌋ else ⌈q⌉

/-- Python `round(x)` on a float value: round half to even. -/
def pythonRound (q : Rat) : Int :=
  let f := ⌊q⌋
  let r := q - f
  if r < 1/2 then f
  else if 1/2 < r then f + 1
  else if f.fmod 2 = 0 then f else f + 1

/-- Append to the calibration deque (`deque(maxlen=100)`), kept here with the
most recent pair first so Python's `[-1]` is the head and `[-2]` the second
element. -/
def calibAppend (l : List (Int × Int)) (x : Int × Int) : List (Int × Int) :=
  (x :: l).take 100

/-- `_DAC_PER_LOOP_MIN` (0.999). -/
def dacPerLoopMin : Rat := 999/1000

/-- `_DAC_PER_LOOP_MAX` (1.001). -/
def dacPerLoopMax : Rat := 1001/1000

/-- `AudioPlayer._estimate_dac_time_for_server_timestamp`: map a server
timestamp through `compute_client_time`, then extrapolate from the most
recent two calibration pairs with the clamped DAC-per-loop slope (slope 1.0
when only one usable pair exists), returning 0 when no calibration exists. -/
def estimateDacTimeForServerTimestamp (env : TimeEnv) (s : AudioPlayer)
    (serverTimestampUs : Int) : Int :=
  if s.lastDacCalibrationTimeUs = 0 then 0
  else
    let loopTimeUs := env.computeClientTime serverTimestampUs
    match s.dacLoopCalibrations with
    | [] => 0
    | (dacRefUs, loopRefUs) :: rest =>
      if loopRefUs = 0 then 0
      else
        let prev := match rest with | [] => (0, 0) | p :: _ => p
        let dacPrevUs := prev.1
        let loopPrevUs := prev.2
        let dacPerLoop : Rat :=
          if loopPrevUs ≠ 0 ∧ dacPrevUs ≠ 0 ∧ loopRefUs ≠ loopPrevUs then
            max dacPerLoopMin (min dacPerLoopMax
              ((dacRefUs - dacPrevUs : Int) / (loopRefUs - loopPrevUs : Int)))
          else 1
        pythonRound (dacRefUs + (loopTimeUs - loopRefUs) * dacPerLoop)

/-- `AudioPlayer._estimate_loop_time_for_dac_time`: the symmetric inverse
extrapolation (its guard only checks that the previous DAC value is nonzero
and distinct from the reference). -/
def estimateLoopTimeForDacTime (s : AudioPlayer) (dacTimeUs : Int) : Int :=
  match s.dacLoopCalibrations with
  | [] => 0
  | (dacRefUs, loopRefUs) :: rest =>
    if loopRefUs = 0 then 0
    else
      let prev := match rest with | [] => (0, 0) | p :: _ => p
      let dacPrevUs := prev.1
      let loopPrevUs := prev.2
      let loopPerDac : Rat :=
        if dacPrevUs ≠ 0 ∧ dacRefUs ≠ dacPrevUs then
          max dacPerLoopMin (min dacPerLoopMax
            ((loopRefUs - loopPrevUs : Int) / (dacRefUs - dacPrevUs : Int)))
        else 1
      pythonRound (loopRefUs + (dacTimeUs - dacRefUs) * loopPerDac)

/-- `AudioPlayer._advance_server_cursor_frames`: advance the server-timeline
cursor by `frames` frames, carrying microseconds in an integer remainder. -/
def advanceServerCursorFrames (s : AudioPlayer) (frames : Int) : AudioPlayer :=
  match s.format with
  | none => s
  | some f =>
    if frames ≤ 0 then s
    else
      let rem := s.serverTsCursorRemainder + frames * 1000000
      let sr : Int := f.sample_rate
      if sr ≤ rem then
        { s with serverTsCursorRemainder := rem.fmod sr,
                 serverTsCursorUs := s.serverTsCursorUs + rem.fdiv sr }
      else { s with serverTsCursorRemainder := rem }

/-- `AudioPlayer._initialize_current_chunk`: pop the next chunk from the
queue, reset the read offset, and seed the server cursor from the chunk's
timestamp when the cursor is still 0.  (Callers check the queue first; on an
empty queue Python's `get_nowait` would raise, modelled as a no-op.) -/
def initializeCurrentChunk (s : AudioPlayer) : AudioPlayer :=
  match s.queue with
  | [] => s
  | c :: rest =>
    let s := { s with currentChunk := some c, currentChunkOffset := 0, queue := rest }
    if s.serverTsCursorUs = 0 then { s with serverTsCursorUs := c.server_timestamp_us }
    else s

/-- `AudioPlayer._advance_finished_chunk`: when the current chunk is fully
consumed, subtract its duration from the queued-duration counter and drop it. -/
def advanceFinishedChunk (s : AudioPlayer) : AudioPlayer :=
  match s.format with
  | none => s
  | some f =>
    match s.currentChunk with
    | none => s
    | some c =>
      let chunkFrames := c.audio_data.length / f.frame_size
      let chunkDurationUs : Int := (chunkFrames * 1000000) / f.sample_rate
      { s with queuedDurationUs := max 0 (s.queuedDurationUs - chunkDurationUs),
               currentChunk := none, currentChunkOffset := 0 }

/-- `AudioPlayer._read_one_input_frame`: read and consume a single frame from
the queue, advancing the cursor; returns `none` when no data is available. -/
def readOneInputFrame (s : AudioPlayer) : Option (List Nat) × AudioPlayer :=
  match s.format with
  | none => (none, s)
  | some f =>
    if f.frame_size = 0 then (none, s)
    else
      let s := if s.currentChunk = none then
                 (if s.queue = [] then s else initializeCurrentChunk s)
               else s
      match s.currentChunk with
      | none => (none, s)
      | some chunk =>
        let data := chunk.audio_data
        if data.length ≤ s.currentChunkOffset then (none, advanceFinishedChunk s)
        else
          let start := s.currentChunkOffset
          let e := min (start + f.frame_size) data.length
          let frame := (data.drop start).take (e - start)
          let s := { s with currentChunkOffset := e }
          let s := advanceServerCursorFrames s 1
          let s := if data.length ≤ s.currentChunkOffset then advanceFinishedChunk s else s
          let frame := if frame.length < f.frame_size then
                         frame ++ List.replicate (f.frame_size - frame.length) 0
                       else frame
          (some frame, s)

/-- The `while bytes_written < total_bytes_needed` loop of
`AudioPlayer._read_input_frames_bulk`, with explicit fuel (each Python
iteration consumes one unit; the caller supplies enough fuel for the loop to
run to completion).  Returns the output bytes, the number of bytes actually
read from the queue (`bytes_written`, which excludes underrun padding), and
the updated state. -/
def readBulkLoop (fuel : Nat) (s : AudioPlayer) (fs needed : Nat)
    (acc : List Nat) : List Nat × Nat × AudioPlayer :=
  match fuel with
  | 0 => (acc, acc.length, s)
  | fuel + 1 =>
    if needed ≤ acc.length then (acc, acc.length, s)
    else
      match s.currentChunk with
      | none =>
        if s.queue = [] then
          (acc ++ List.replicate (needed - acc.length) 0, acc.length, s)
        else readBulkLoop fuel (initializeCurrentChunk s) fs needed acc
      | some chunk =>
        let data := chunk.audio_data
        let availableBytes := data.length - s.currentChunkOffset
        let bytesToRead := min availableBytes (needed - acc.length)
        let piece := (data.drop s.currentChunkOffset).take bytesToRead
        let s := { s with currentChunkOffset := s.currentChunkOffset + bytesToRead }
        let framesRead := bytesToRead / fs
        let s := advanceServerCursorFrames s framesRead
        let s := if data.length ≤ s.currentChunkOffset then advanceFinishedChunk s else s
        readBulkLoop fuel s fs needed (acc ++ piece)

/-- `AudioPlayer._read_input_frames_bulk`: read `nFrames` frames in bulk,
walking chunk boundaries and padding with silence on queue underrun; records
the last full frame read in `_last_output_frame`. -/
def readInputFramesBulk (s : AudioPlayer) (nFrames : Nat) : List Nat × AudioPlayer :=
  match s.format with
  | none => ([], s)
  | some f =>
    if nFrames = 0 then ([], s)
    else
      let needed := nFrames * f.frame_size
      let r := readBulkLoop (needed + 2 * s.queue.length + 3) s f.frame_size needed []
      let result := r.1
      let bytesWritten := r.2.1
      let s := r.2.2
      let s := if f.frame_size ≤ bytesWritten then
                 { s with lastOutputFrame :=
                     (result.drop (bytesWritten - f.frame_size)).take f.frame_size }
               else s
      (result, s)

/-- The `while frames_to_skip > 0` loop of `AudioPlayer._skip_input_frames`,
with explicit fuel (one unit per Python iteration). -/
def skipLoop (fuel : Nat) (s : AudioPlayer) (fs framesToSkip : Nat) : AudioPlayer :=
  match fuel with
  | 0 => s
  | fuel + 1 =>
    if framesToSkip = 0 then s
    else
      match s.currentChunk with
      | none =>
        if s.queue = [] then s
        else skipLoop fuel (initializeCurrentChunk s) fs framesToSkip
      | some c =>
        let remBytes := c.audio_data.length - s.currentChunkOffset
        let remFrames := remBytes / fs
        if remFrames = 0 then skipLoop fuel (advanceFinishedChunk s) fs framesToSkip
        else
          let take := min remFrames framesToSkip
          let s := { s with currentChunkOffset := s.currentChunkOffset + take * fs }
          let s := advanceServerCursorFrames s take
          let s := if c.audio_data.length ≤ s.currentChunkOffset then advanceFinishedChunk s
                   else s
          skipLoop fuel s fs (framesToSkip - take)

/-- `AudioPlayer._skip_input_frames`: discard frames from the input to reduce
buffer depth quickly (used by DAC-gated fast-forward). -/
def skipInputFrames (s : AudioPlayer) (framesToSkip : Nat) : AudioPlayer :=
  match s.format with
  | none => s
  | some f =>
    if framesToSkip = 0 then s
    else skipLoop (framesToSkip + 2 * s.queue.length + 3) s f.frame_size framesToSkip

/-- `AudioPlayer._update_correction_schedule`: smooth the raw sync error (the
filter's posterior is the oracle `filteredErr`), then either deadband, or
re-anchor (resetting cadence, stamping the cooldown anchor and clearing the
queue), or install a proportional drop/insert cadence capped at 4 % of the
sample rate.  The returned flag records whether the re-anchor branch fired
(the Python function communicates this only through its log).  The interval
arithmetic of the final branch is idealized here over exact rationals; the
source runs it on binary64 floats, modelled bit-exactly by
`correctionIntervalFrames`, and the two can differ by one ulp of rounding
(e.g. interval 24 instead of 25 at sample rate 7, the subject of claim C5).
The branch structure and every threshold comparison are exact in both
models. -/
def updateCorrectionSchedule (s : AudioPlayer) (nowLoopUs : Int)
    (filteredErr : Rat) : AudioPlayer × Bool :=
  match s.format with
  | none => (s, false)
  | some f =>
    if f.sample_rate = 0 then (s, false)
    else
      let s := { s with syncErrorFilteredUs := filteredErr }
      let absErr := |s.syncErrorFilteredUs|
      if absErr ≤ 2000 then
        ({ s with insertEveryNFrames := 0, dropEveryNFrames := 0 }, false)
      else if 500000 < absErr ∧ s.playbackState = .PLAYING ∧
              5000000 < nowLoopUs - s.lastReanchorLoopTimeUs then
        let s := { s with insertEveryNFrames := 0, dropEveryNFrames := 0,
                          framesUntilNextInsert := 0, framesUntilNextDrop := 0,
                          lastReanchorLoopTimeUs := nowLoopUs }
        (s.clear, true)
      else
        let framesError : Rat := absErr * f.sample_rate / 1000000
        let desiredCorrectionsPerSec := framesError / 2
        let maxCorrectionsPerSec : Rat := f.sample_rate * (4/100)
        let correctionsPerSec := min desiredCorrectionsPerSec maxCorrectionsPerSec
        let intervalFrames : Int :=
          if 0 < correctionsPerSec then
            max (ratTrunc (f.sample_rate / correctionsPerSec)) 1
          else ratTrunc (1 / max (4/100) (1/1000))
        if (0 : Rat) < s.syncErrorFilteredUs then
          ({ s with dropEveryNFrames := intervalFrames.toNat, insertEveryNFrames := 0 }, false)
        else
          ({ s with insertEveryNFrames := intervalFrames.toNat, dropEveryNFrames := 0 }, false)

/-- `AudioPlayer._update_playback_position_from_dac`: append a (DAC, loop)
calibration pair, update the playback position in server time from the
extrapolated loop time at the DAC time, and, if the DAC-anchored start is
still unknown while the loop-anchored one is known, estimate it now. -/
def updatePlaybackPositionFromDac (env : TimeEnv) (s : AudioPlayer)
    (dacTimeUs nowUs : Int) : AudioPlayer :=
  let s := { s with dacLoopCalibrations := calibAppend s.dacLoopCalibrations (dacTimeUs, nowUs),
                    lastDacCalibrationTimeUs := nowUs }
  let loopAtDacUs := estimateLoopTimeForDacTime s dacTimeUs
  let loopAtDacUs := if loopAtDacUs = 0 then nowUs else loopAtDacUs
  let s := { s with lastKnownPlaybackPositionUs := env.computeServerTime loopAtDacUs }
  if s.scheduledStartDacTimeUs = none ∧
     (s.scheduledStartLoopTimeUs.getD 0) ≠ 0 ∧ s.scheduledStartLoopTimeUs ≠ none then
    let loopStart := s.scheduledStartLoopTimeUs.getD 0
    let estDac := estimateDacTimeForServerTimestamp env s (env.computeServerTime loopStart)
    if estDac ≠ 0 then { s with scheduledStartDacTimeUs := some estDac } else s
  else s

/-- `AudioPlayer._handle_start_gating`: gate on DAC time when a DAC-anchored
start exists (falling back to loop time), filling silence while the start is
in the future, fast-forwarding (DAC gating only, unless an early start is
suspected) when it is in the past, and arming `PLAYING` once the current time
has reached the target.  Returns the buffer, the bytes written and the state. -/
def handleStartGating (s : AudioPlayer) (buf : List Nat) (bytesWritten : Nat)
    (framesCnt : Nat) (dacTimeUs nowUs : Int) : List Nat × Nat × AudioPlayer :=
  match s.format with
  | none => (buf, bytesWritten, s)
  | some f =>
    let gate : Option (Int × Int × Int × Bool) :=
      if s.scheduledStartDacTimeUs.isSome ∧ 0 < dacTimeUs then
        let target := s.scheduledStartDacTimeUs.getD 0
        some (target - dacTimeUs, target, dacTimeUs, true)
      else
        match s.scheduledStartLoopTimeUs with
        | some l => some (l - nowUs, l, nowUs, false)
        | none => none
    match gate with
    | none => (buf, bytesWritten, s)
    | some (deltaUs, targetTimeUs, currentTimeUs, canDropFrames) =>
      let r : List Nat × Nat × AudioPlayer :=
        if 0 < deltaUs then
          let framesUntilStart := ((deltaUs * f.sample_rate + 999999).fdiv 1000000).toNat
          let framesToSilence := min framesUntilStart framesCnt
          let silenceBytes := framesToSilence * f.frame_size
          (buf ++ List.replicate silenceBytes 0, bytesWritten + silenceBytes, s)
        else if deltaUs < 0 ∧ canDropFrames then
          if ¬(s.earlyStartSuspect ∧ ¬s.hasReanchored) then
            let framesToDrop := (((-deltaUs) * f.sample_rate + 999999).fdiv 1000000).toNat
            let s := skipInputFrames s framesToDrop
            (buf, bytesWritten, { s with playbackState := .PLAYING })
          else (buf, bytesWritten, s)
        else (buf, bytesWritten, s)
      let buf := r.1
      let bytesWritten := r.2.1
      let s := r.2.2
      if targetTimeUs ≤ currentTimeUs then
        (buf, bytesWritten, { s with playbackState := .PLAYING })
      else (buf, bytesWritten, s)

/-- The `while frames_remaining > 0` loop of the slow (correction) path of
`AudioPlayer._audio_callback`, with explicit fuel (one unit per Python
iteration; each productive iteration emits at least one frame, so
`framesCnt + 1` fuel suffices).  `insertEveryN` and `dropEveryN` are the
thread-local snapshots taken at callback entry; the event branches re-read
the instance fields, exactly as the Python code does.  Returns the state,
the two countdown counters to write back, and the output buffer. -/
def slowLoop (fuel : Nat) (s : AudioPlayer) (fs insertEveryN dropEveryN : Nat)
    (insertCounter dropCounter : Int) (framesRemaining : Nat) (buf : List Nat) :
    AudioPlayer × Int × Int × List Nat :=
  match fuel with
  | 0 => (s, insertCounter, dropCounter, buf)
  | fuel + 1 =>
    if framesRemaining = 0 then (s, insertCounter, dropCounter, buf)
    else
      let framesUntilInsert : Int :=
        if 0 < insertEveryN then insertCounter else (framesRemaining : Int) + 1
      let framesUntilDrop : Int :=
        if 0 < dropEveryN then dropCounter else (framesRemaining : Int) + 1
      let nextEventIn : Int := min (min framesUntilInsert framesUntilDrop) (framesRemaining : Int)
      let seg : AudioPlayer × Int × Int × Nat × List Nat :=
        if 0 < nextEventIn then
          let n := nextEventIn.toNat
          let rb := readInputFramesBulk s n
          (rb.2, insertCounter - n, dropCounter - n, framesRemaining - n, buf ++ rb.1)
        else (s, insertCounter, dropCounter, framesRemaining, buf)
      let s := seg.1
      let insertCounter := seg.2.1
      let dropCounter := seg.2.2.1
      let framesRemaining := seg.2.2.2.1
      let buf := seg.2.2.2.2
      if framesRemaining = 0 then (s, insertCounter, dropCounter, buf)
      else if dropCounter ≤ 0 ∧ 0 < s.dropEveryNFrames then
        let s := (readOneInputFrame s).2
        let s := (readOneInputFrame s).2
        let s := { s with framesDroppedSinceLog := s.framesDroppedSinceLog + 1 }
        slowLoop fuel s fs insertEveryN dropEveryN (insertCounter - 1)
          (s.dropEveryNFrames : Int) (framesRemaining - 1) (buf ++ s.lastOutputFrame)
      else if insertCounter ≤ 0 ∧ 0 < s.insertEveryNFrames then
        let s := { s with framesInsertedSinceLog := s.framesInsertedSinceLog + 1 }
        slowLoop fuel s fs insertEveryN dropEveryN (s.insertEveryNFrames : Int)
          (dropCounter - 1) (framesRemaining - 1) (buf ++ s.lastOutputFrame)
      else slowLoop fuel s fs insertEveryN dropEveryN insertCounter dropCounter
        framesRemaining buf

/-- The sample-emission step of `AudioPlayer._audio_callback` (the `else`
branch after start gating): bulk fast path when both cadences are zero,
otherwise reset stale countdowns, seed `_last_output_frame`, run the
correction loop and write the countdown counters back. -/
def emitFrames (s : AudioPlayer) (f : PCMFormat) (framesCnt : Nat) (buf : List Nat) :
    AudioPlayer × List Nat :=
  let fs := f.frame_size
  let insertEveryN := s.insertEveryNFrames
  let dropEveryN := s.dropEveryNFrames
  if insertEveryN = 0 ∧ dropEveryN = 0 then
    let rb := readInputFramesBulk s framesCnt
    (rb.2, buf ++ rb.1)
  else
    let s := if s.framesUntilNextInsert ≤ 0 ∧ 0 < insertEveryN then
               { s with framesUntilNextInsert := insertEveryN } else s
    let s := if s.framesUntilNextDrop ≤ 0 ∧ 0 < dropEveryN then
               { s with framesUntilNextDrop := dropEveryN } else s
    let s := if s.lastOutputFrame = [] then
               { s with lastOutputFrame := List.replicate fs 0 } else s
    let r := slowLoop (framesCnt + 1) s fs insertEveryN dropEveryN
      s.framesUntilNextInsert s.framesUntilNextDrop framesCnt buf
    ({ r.1 with framesUntilNextInsert := r.2.1, framesUntilNextDrop := r.2.2.1 }, r.2.2.2)

/-- `AudioPlayer._audio_callback` up to (but excluding) the volume-scaling
step: handle underflow status, capture the DAC/loop calibration, run start
gating, and emit samples.  Returns the new state and the output buffer
contents (the bytes the callback wrote into `outdata`). -/
def audioCallbackCore (env : TimeEnv) (s : AudioPlayer) (framesCnt : Nat)
    (dacTimeUs nowUs : Int) (underflow : Bool) : AudioPlayer × List Nat :=
  match s.format with
  | none => (s, [])
  | some f =>
    let bytesNeeded := framesCnt * f.frame_size
    if underflow then
      ({ s with clearRequested := true }, List.replicate bytesNeeded 0)
    else
      let s := updatePlaybackPositionFromDac env s dacTimeUs nowUs
      if s.playbackState = .WAITING_FOR_START then
        let g := handleStartGating s [] 0 framesCnt dacTimeUs nowUs
        let buf := g.1
        let bytesWritten := g.2.1
        let s := g.2.2
        if s.playbackState = .WAITING_FOR_START then
          (s, buf ++ List.replicate (bytesNeeded - bytesWritten) 0)
        else
          let e := emitFrames s f framesCnt buf
          (e.1, e.2)
      else
        let e := emitFrames s f framesCnt []
        (e.1, e.2)

/-- The start-scheduling block of `submit`: on the very first chunk compute
the scheduled loop start, try a DAC estimate, move to `WAITING_FOR_START`,
record the first server timestamp and apply the 700 ms early-start-suspect
rule; while waiting, refresh the scheduled start when it moved by more than
5 ms. -/
def submitSchedulePhase (env : TimeEnv) (s : AudioPlayer) (serverTimestampUs : Int)
    (nowUs : Int) : AudioPlayer :=
  if s.scheduledStartLoopTimeUs = none then
    let loopStart := env.computeClientTime serverTimestampUs
    let s := { s with scheduledStartLoopTimeUs := some loopStart }
    let estDac := estimateDacTimeForServerTimestamp env s serverTimestampUs
    let s := { s with
      scheduledStartDacTimeUs := if estDac ≠ 0 then some estDac else none,
      playbackState := .WAITING_FOR_START,
      firstServerTimestampUs := some serverTimestampUs }
    if loopStart - nowUs ≤ 700000 then { s with earlyStartSuspect := true } else s
  else if s.playbackState = .WAITING_FOR_START ∧ s.firstServerTimestampUs ≠ none then
    let firstTs := s.firstServerTimestampUs.getD 0
    let updatedLoopStart := env.computeClientTime firstTs
    if 5000 < |updatedLoopStart - s.scheduledStartLoopTimeUs.getD 0| then
      let s := { s with scheduledStartLoopTimeUs := some updatedLoopStart }
      let estDac := estimateDacTimeForServerTimestamp env s firstTs
      { s with scheduledStartDacTimeUs := if estDac ≠ 0 then some estDac else none }
    else s
  else s

/-- The sync-error block of `submit`: when playing with a known playback
position and a seeded cursor, feed the raw error into the corrector. -/
def submitCorrectorPhase (s : AudioPlayer) (nowUs : Int) (filteredErr : Rat) :
    AudioPlayer × Bool :=
  if s.playbackState = .PLAYING ∧ 0 < s.lastKnownPlaybackPositionUs ∧
     0 < s.serverTsCursorUs then
    updateCorrectionSchedule s nowUs filteredErr
  else (s, false)

/-- The gap/overlap reconciliation of `submit`: compare the incoming
timestamp with the expected next timestamp, enqueue gap silence, trim
overlap, or drop the chunk entirely (`none`) when the trim consumes it. -/
def submitReconcile (f : PCMFormat) (s : AudioPlayer) (serverTimestampUs : Int)
    (payload : List Nat) : Option (Int × List Nat × AudioPlayer) :=
  match s.expectedNextTimestamp with
  | none => some (serverTimestampUs, payload,
      { s with expectedNextTimestamp := some serverTimestampUs })
  | some expected =>
    if expected < serverTimestampUs then
      let gapUs := serverTimestampUs - expected
      let gapFrames := (gapUs * f.sample_rate).fdiv 1000000
      let silenceBytes := (gapFrames * f.frame_size).toNat
      let silence := List.replicate silenceBytes 0
      let silenceDurationUs := (gapFrames * 1000000).fdiv f.sample_rate
      let s := { s with
        queue := s.queue ++ [⟨expected, silence⟩],
        queuedDurationUs := s.queuedDurationUs + silenceDurationUs,
        expectedNextTimestamp := some serverTimestampUs }
      some (serverTimestampUs, payload, s)
    else if serverTimestampUs < expected then
      let overlapUs := expected - serverTimestampUs
      let overlapFrames := (overlapUs * f.sample_rate).fdiv 1000000
      let trimBytes := (overlapFrames * f.frame_size).toNat
      if trimBytes < payload.length then
        some (expected, payload.drop trimBytes, s)
      else none
    else some (serverTimestampUs, payload, s)

/-- The enqueue step of `submit`: queue the (post-trim) chunk, account its
duration, advance the expected next timestamp, and start the stream on the
first nonempty queue. -/
def submitEnqueue (f : PCMFormat) (ts : Int) (pl : List Nat) (s : AudioPlayer) :
    AudioPlayer :=
  let s :=
    if 0 < pl.length then
      let chunkFrames := pl.length / f.frame_size
      let chunkDurationUs : Int := (chunkFrames * 1000000) / f.sample_rate
      { s with
        queue := s.queue ++ [⟨ts, pl⟩],
        queuedDurationUs := s.queuedDurationUs + chunkDurationUs,
        expectedNextTimestamp := some (ts + chunkDurationUs) }
    else s
  if ¬s.streamStarted ∧ s.queue ≠ [] then { s with streamStarted := true } else s

/-- The body of `AudioPlayer.submit` after the deferred-clear handling:
format and frame-alignment checks, then scheduling, corrector, gap/overlap
reconciliation and enqueue phases in the order of the source.  Returns the
state and whether the corrector re-anchored. -/
def submitBody (env : TimeEnv) (s : AudioPlayer) (serverTimestampUs : Int)
    (payload : List Nat) (nowUs : Int) (filteredErr : Rat) : AudioPlayer × Bool :=
  match s.format with
  | none => (s, false)
  | some f =>
    if f.frame_size = 0 then (s, false)
    else if payload.length % f.frame_size ≠ 0 then (s, false)
    else
      let s := submitSchedulePhase env s serverTimestampUs nowUs
      let corr := submitCorrectorPhase s nowUs filteredErr
      let s := corr.1
      let reanchored := corr.2
      match submitReconcile f s serverTimestampUs payload with
      | none => (s, reanchored)
      | some (ts, pl, s) => (submitEnqueue f ts pl s, reanchored)

/-- `AudioPlayer.submit` including the deferred-clear handling at the top
(the `clear_requested` flag raised by the audio thread on underflow is
consumed here), instrumented with the re-anchor indicator. -/
def submitR (env : TimeEnv) (s : AudioPlayer) (serverTimestampUs : Int)
    (payload : List Nat) (nowUs : Int) (filteredErr : Rat) : AudioPlayer × Bool :=
  let s := if s.clearRequested then s.clear else s
  submitBody env s serverTimestampUs payload nowUs filteredErr

/-- `AudioPlayer.submit`: the state after one submit call. -/
def submit (env : TimeEnv) (s : AudioPlayer) (serverTimestampUs : Int)
    (payload : List Nat) (nowUs : Int) (filteredErr : Rat) : AudioPlayer :=
  (submitR env s serverTimestampUs payload nowUs filteredErr).1

/-- One externally observable event driving the player: a `submit` call on
the event thread or an audio callback on the backend thread.  Each event
carries the clock readings and the filter oracle for that instant. -/
inductive PlayerEvent where
  | submitEv (serverTimestampUs : Int) (payload : List Nat) (nowUs : Int)
      (filteredErr : Rat)
  | callbackEv (framesCnt : Nat) (dacTimeUs : Int) (nowUs : Int) (underflow : Bool)

/-- Apply one event; also report the loop times at which a re-anchor fired
during the event (at most one, inside a submit's correction update). -/
def stepEvent (env : TimeEnv) (s : AudioPlayer) : PlayerEvent → AudioPlayer × List Int
  | .submitEv ts payload nowUs filteredErr =>
    let r := submitR env s ts payload nowUs filteredErr
    (r.1, if r.2 then [nowUs] else [])
  | .callbackEv framesCnt dacTimeUs nowUs underflow =>
    ((audioCallbackCore env s framesCnt dacTimeUs nowUs underflow).1, [])

/-- Run a list of events, collecting all re-anchor loop times in order. -/
def runTrace (env : TimeEnv) (s : AudioPlayer) : List PlayerEvent → AudioPlayer × List Int
  | [] => (s, [])
  | e :: rest =>
    let r := stepEvent env s e
    let r2 := runTrace env r.1 rest
    (r2.1, r.2 ++ r2.2)

/-- Decode two PCM bytes (little-endian) into a signed 16-bit sample value,
as `np.frombuffer(..., dtype=np.int16)` does. -/
def decodeI16 (lo hi : Nat) : Int :=
  let v := (lo % 256) + 256 * (hi % 256)
  if 32768 ≤ v then (v : Int) - 65536 else v

/-- Encode a signed 16-bit sample value back into two little-endian bytes. -/
def encodeI16 (x : Int) : Nat × Nat :=
  let u := (x.fmod 65536).toNat
  (u % 256, u / 256)

/-- The power-curve amplitude of `_apply_volume`: `(volume / 100.0) ** 1.5`. -/
noncomputable def amplitude (volume : Int) : Real :=
  ((volume : Real) / 100) ^ ((3 : Real) / 2)

/-- Truncation toward zero of a real value (numpy's float → int16 cast). -/
noncomputable def truncReal (x : Real) : Int :=
  if 0 ≤ x then ⌊x⌋ else ⌈x⌉

/-- One sample through `_apply_volume`'s scaling:
`(sample * amplitude).astype(np.int16)`. -/
noncomputable def scaleSample (volume : Int) (sample : Int) : Int :=
  truncReal ((sample : Real) * amplitude volume)

/-- Scale every int16 sample of a byte buffer (the numpy vectorized body of
`_apply_volume`). -/
noncomputable def scaleBuffer (volume : Int) : List Nat → List Nat
  | lo :: hi :: rest =>
    let y := encodeI16 (scaleSample volume (decodeI16 lo hi))
    y.1 :: y.2 :: scaleBuffer volume rest
  | rest => rest

/-- `AudioPlayer._apply_volume`: silence when muted or at volume 0, identity
at volume 100, and per-sample power-curve scaling otherwise. -/
noncomputable def applyVolume (volume : Int) (muted : Bool) (buf : List Nat) : List Nat :=
  if muted ∨ volume = 0 then List.replicate buf.length 0
  else if volume = 100 then buf
  else scaleBuffer volume buf

/-- Identity time mapping (`compute_client_time(t) = t`, inverse identical),
used for concrete evaluations. -/
def envId : TimeEnv := ⟨fun t => t, fun t => t⟩

/-- The cursor accumulator invariant quantity: `sample_rate * cursor_us +
remainder`.  `_advance_server_cursor_frames` adds exactly `1e6` to it per
frame. -/
def cursorTotal (f : PCMFormat) (s : AudioPlayer) : Int :=
  (f.sample_rate : Int) * s.serverTsCursorUs + s.serverTsCursorRemainder

/-- Bytes of queued audio still readable by the callback: the unread part of
the current chunk plus every queued chunk. -/
def availableBytes (s : AudioPlayer) : Nat :=
  (match s.currentChunk with
   | some c => c.audio_data.length - s.currentChunkOffset
   | none => 0) +
  (s.queue.map (fun c => c.audio_data.length)).sum

/-- Frame alignment invariant for the queue: every queued chunk is a nonzero
whole number of frames, the partial-chunk offset is frame aligned, and the
current chunk (when present) is frame aligned with data still unread. -/
def chunkAligned (fs : Nat) (s : AudioPlayer) : Prop :=
  (∀ c ∈ s.queue, c.audio_data.length % fs = 0 ∧ c.audio_data.length ≠ 0) ∧
  s.currentChunkOffset % fs = 0 ∧
  (∀ c, s.currentChunk = some c →
    c.audio_data.length % fs = 0 ∧ s.currentChunkOffset < c.audio_data.length)

/-- The callback-side bookkeeping fields that the queue-reading helpers never
touch: format, playback state, the cadence settings and the correction-event
counters. -/
def sameSched (t s : AudioPlayer) : Prop :=
  t.format = s.format ∧ t.playbackState = s.playbackState ∧
  t.insertEveryNFrames = s.insertEveryNFrames ∧
  t.dropEveryNFrames = s.dropEveryNFrames ∧
  t.framesDroppedSinceLog = s.framesDroppedSinceLog ∧
  t.framesInsertedSinceLog = s.framesInsertedSinceLog

/-- The correction-schedule key: the four fields the sample-emission path
reads but never writes (format, playback state and the two cadence
settings). -/
def schedKey (s : AudioPlayer) : Option PCMFormat × PlaybackState × Nat × Nat :=
  (s.format, s.playbackState, s.insertEveryNFrames, s.dropEveryNFrames)

/-- Bit length of a natural number (`⌊log2 n⌋ + 1` for `n > 0`), by
structural recursion on a fuel that far exceeds the magnitude of any finite
binary64 value (`2 ^ 1100`). -/
def natBits : Nat → Nat → Nat
  | 0, _ => 0
  | fuel + 1, n => if n = 0 then 0 else natBits fuel (n / 2) + 1

/-- A nonnegative IEEE-754 binary64 value as a pair `(m, e)` denoting
`m * 2 ^ e`, normalized so that `m = 0` or `2 ^ 52 ≤ m < 2 ^ 53`.  The
correction-interval arithmetic of `_update_correction_schedule` runs on
Python floats (binary64, round to nearest, ties to even) over strictly
positive normal values, which this representation models exactly. -/
def f64ofNat (n : Nat) : Nat × Int :=
  if n = 0 then (0, 0)
  else
    let b := natBits 1100 n
    if b ≤ 53 then (n * 2 ^ (53 - b), (0 : Int) - (53 - b))
    else
      let s := b - 53
      let hi := n / 2 ^ s
      let low := n % 2 ^ s
      let hi := if 2 ^ s < 2 * low then hi + 1
                else if 2 * low < 2 ^ s then hi
                else if hi % 2 = 1 then hi + 1 else hi
      if hi = 2 ^ 53 then (2 ^ 52, (s : Int) + 1) else (hi, (s : Int))

/-- Binary64 multiplication (round to nearest, ties to even): the exact
product has 105 or 106 significant bits and is rounded back to 53. -/
def f64mul (x y : Nat × Int) : Nat × Int :=
  if x.1 = 0 ∨ y.1 = 0 then (0, 0)
  else
    let p := x.1 * y.1
    let s := natBits 1100 p - 53
    let hi := p / 2 ^ s
    let low := p % 2 ^ s
    let hi := if 2 ^ s < 2 * low then hi + 1
              else if 2 * low < 2 ^ s then hi
              else if hi % 2 = 1 then hi + 1 else hi
    if hi = 2 ^ 53 then (2 ^ 52, x.2 + y.2 + (s : Int) + 1)
    else (hi, x.2 + y.2 + (s : Int))

/-- Binary64 division (round to nearest, ties to even): a 55-bit-scaled
integer quotient plus its remainder determine the correctly rounded result
(the remainder supplies the exact below-ulp fraction for the comparison with
one half). -/
def f64div (x y : Nat × Int) : Nat × Int :=
  if x.1 = 0 ∨ y.1 = 0 then (0, 0)
  else
    let n := x.1 * 2 ^ 55
    let q := n / y.1
    let r := n % y.1
    let s := natBits 1100 q - 53
    let hi := q / 2 ^ s
    let low := q % 2 ^ s
    let lhs := 2 * (low * y.1 + r)
    let rhs := 2 ^ s * y.1
    let hi := if rhs < lhs then hi + 1
              else if lhs < rhs then hi
              else if hi % 2 = 1 then hi + 1 else hi
    if hi = 2 ^ 53 then (2 ^ 52, x.2 - y.2 - 55 + (s : Int) + 1)
    else (hi, x.2 - y.2 - 55 + (s : Int))

/-- Comparison of nonnegative binary64 values (exact on the dyadic values). -/
def f64le (x y : Nat × Int) : Bool :=
  if x.2 ≤ y.2 then decide (x.1 ≤ y.1 * 2 ^ (y.2 - x.2).toNat)
  else decide (x.1 * 2 ^ (x.2 - y.2).toNat ≤ y.1)

/-- Python `min` on binary64 values. -/
def f64min (x y : Nat × Int) : Nat × Int := if f64le x y then x else y

/-- Python `max` on binary64 values. -/
def f64max (x y : Nat × Int) : Nat × Int := if f64le x y then y else x

/-- Python `int()` on a nonnegative binary64 value (truncation). -/
def f64toInt (x : Nat × Int) : Int :=
  if 0 ≤ x.2 then ((x.1 * 2 ^ x.2.toNat : Nat) : Int)
  else ((x.1 / 2 ^ (-x.2).toNat : Nat) : Int)

/-- `_MAX_SPEED_CORRECTION = 0.04` as the binary64 value the source stores:
the nearest double to 1/25 is `5764607523034235 * 2 ^ (-57)`, slightly above
1/25. -/
def c004 : Nat × Int := (5764607523034235, -57)

/-- `0.001` (the literal in the unreachable else branch) as its binary64
value `4611686018427388 * 2 ^ (-62)`. -/
def c0001 : Nat × Int := (4611686018427388, -62)

/-- The interval computation of `_update_correction_schedule`
(`audio.py:989-1003`) with the float arithmetic carried out bit-exactly in
binary64, exactly as CPython evaluates it:
`frames_error = abs_err * sample_rate / 1_000_000.0`,
`desired = frames_error / 2.0`, `max_c = sample_rate * 0.04`,
`corrections_per_sec = min(desired, max_c)`, and
`interval_frames = max(int(sample_rate / corrections_per_sec), 1)` when the
rate is positive (otherwise `int(1.0 / max(0.04, 0.001))`).  `absErr` is the
binary64 value of `abs(self._sync_error_filtered_us)`. -/
def correctionIntervalFrames (sample_rate : Nat) (absErr : Nat × Int) : Int :=
  let srF := f64ofNat sample_rate
  let framesError := f64div (f64mul absErr srF) (f64ofNat 1000000)
  let desired := f64div framesError (f64ofNat 2)
  let maxC := f64mul srF c004
  let cps := f64min desired maxC
  if 0 < cps.1 then max (f64toInt (f64div srF cps)) 1
  else f64toInt (f64div (f64ofNat 1) (f64max c004 c0001))

/-- Rounding an integer value is the identity. -/
theorem pythonRound_intCast (n : Int) : pythonRound ((n : Rat)) = n := by
  have h1 : ⌊((n : Rat))⌋ = n := Int.floor_intCast n
  simp only [pythonRound, h1, sub_self]
  norm_num

/-- Truncating an integer value is the identity. -/
theorem ratTrunc_intCast (n : Int) : ratTrunc ((n : Rat)) = n := by
  rcases le_or_lt 0 n with h | h
  · rw [ratTrunc, if_pos (by exact_mod_cast h), Int.floor_intCast]
  · rw [ratTrunc, if_neg (by push_neg; exact_mod_cast h), Int.ceil_intCast]

/-- Unit scaling of a sample never increases its magnitude. -/
theorem abs_truncReal_mul_le (a : Real) (s : Int) (h0 : 0 ≤ a) (h1 : a ≤ 1) :
    |truncReal ((s : Real) * a)| ≤ |s| := by
  rcases le_or_lt 0 s with hs | hs
  · have hsR : (0 : Real) ≤ (s : Real) := by exact_mod_cast hs
    have hx0 : (0 : Real) ≤ (s : Real) * a := mul_nonneg hsR h0
    have hxs : (s : Real) * a ≤ (s : Real) := by
      calc (s : Real) * a ≤ (s : Real) * 1 := by
            exact mul_le_mul_of_nonneg_left h1 hsR
        _ = (s : Real) := mul_one _
    rw [truncReal, if_pos hx0]
    have hfl0 : 0 ≤ ⌊(s : Real) * a⌋ := Int.floor_nonneg.mpr hx0
    have hfls : ⌊(s : Real) * a⌋ ≤ s := by
      have := Int.floor_le_floor hxs
      simpa using this
    rw [abs_of_nonneg hfl0, abs_of_nonneg hs]
    exact hfls
  · have hsR : (s : Real) < 0 := by exact_mod_cast hs
    have hxs : (s : Real) ≤ (s : Real) * a := by
      calc (s : Real) = (s : Real) * 1 := (mul_one _).symm
        _ ≤ (s : Real) * a := by
            rcases eq_or_lt_of_le h1 with h | h
            · rw [h]
            · exact le_of_lt (by nlinarith)
    have hx0 : (s : Real) * a ≤ 0 := by nlinarith
    rw [truncReal]
    by_cases hpos : (0 : Real) ≤ (s : Real) * a
    · have hxz : (s : Real) * a = 0 := le_antisymm hx0 hpos
      rw [if_pos hpos, hxz]
      simp [abs_nonneg]
    · rw [if_neg hpos]
      have hcl : s ≤ ⌈(s : Real) * a⌉ := by
        have := Int.ceil_le_ceil hxs
        simpa using this
      have hcu : ⌈(s : Real) * a⌉ ≤ 0 := by
        have : ((s : Real) * a) ≤ ((0 : Int) : Real) := by simpa using hx0
        exact Int.ceil_le.mpr this
      rw [abs_of_nonpos hcu, abs_of_nonpos (le_of_lt hs)]
      omega

/-- Claim C9: `set_volume` stores the clamp of its argument into
[0, 100], so the volume invariant holds after every operation, the amplitude
factor `(volume / 100) ^ 1.5` used by `_apply_volume` lies in [0, 1], and
scaling never increases a sample's magnitude (no amplification, no int16
overflow). -/
theorem c9_volume_clamped_and_attenuating (s : AudioPlayer) (v : Int) (m : Bool)
    (sample : Int) :
    (s.set_volume v m).volume = max 0 (min 100 v) ∧
    0 ≤ (s.set_volume v m).volume ∧
    (s.set_volume v m).volume ≤ 100 ∧
    0 ≤ amplitude (s.set_volume v m).volume ∧
    amplitude (s.set_volume v m).volume ≤ 1 ∧
    |scaleSample (s.set_volume v m).volume sample| ≤ |sample| := by
  have hv : (s.set_volume v m).volume = max 0 (min 100 v) := rfl
  have h0 : 0 ≤ (s.set_volume v m).volume := by rw [hv]; exact le_max_left _ _
  have h100 : (s.set_volume v m).volume ≤ 100 := by rw [hv]; omega
  have hx0 : (0 : Real) ≤ ((s.set_volume v m).volume : Real) / 100 := by
    apply div_nonneg _ (by norm_num)
    exact_mod_cast h0
  have hx1 : ((s.set_volume v m).volume : Real) / 100 ≤ 1 := by
    rw [div_le_one (by norm_num : (0 : Real) < 100)]
    exact_mod_cast h100
  have ha0 : 0 ≤ amplitude (s.set_volume v m).volume :=
    Real.rpow_nonneg hx0 _
  have ha1 : amplitude (s.set_volume v m).volume ≤ 1 :=
    Real.rpow_le_one hx0 hx1 (by norm_num)
  exact ⟨hv, h0, h100, ha0, ha1, abs_truncReal_mul_le _ sample ha0 ha1⟩

set_option maxRecDepth 8000 in
/-- Claim C5 is refuted by the program's float arithmetic: at
`sample_rate = 7` with a filtered sync error of 200 ms (above the 2 ms
deadband, below the 500 ms re-anchor threshold, so the proportional branch
runs), the cap path computes `7 * 0.04 = 0.28000000000000003` and
`int(7 / 0.28000000000000003) = int(24.999999999999996) = 24` in binary64,
so the installed interval is 24 frames and the implied correction rate
`7 / 24` exceeds the documented cap `0.04 * 7 = 0.28` corrections per
second. -/
theorem c5_counterexample_float_cap_breached :
    correctionIntervalFrames 7 (f64ofNat 200000) = 24 ∧
    (4 : Rat) / 100 * 7 < (7 : Rat) / 24 := by
  constructor
  · decide
  · norm_num

/-- Counterexample to C3 as stated: with exactly ONE calibration pair
(fewer than two), `_estimate_dac_time_for_server_timestamp` does not return 0
(unknown) — it extrapolates with slope 1.0 and returns 6000000 here. -/
theorem c3_counterexample_one_pair_extrapolates :
    ({ initPlayer (some ⟨2, 1000, 4⟩) with
        dacLoopCalibrations := [(5000000, 1000000)],
        lastDacCalibrationTimeUs := 1000000 } : AudioPlayer).dacLoopCalibrations.length < 2 ∧
    estimateDacTimeForServerTimestamp envId
      { initPlayer (some ⟨2, 1000, 4⟩) with
        dacLoopCalibrations := [(5000000, 1000000)],
        lastDacCalibrationTimeUs := 1000000 } 2000000 = 6000000 := by
  constructor
  · decide
  · simp only [estimateDacTimeForServerTimestamp, envId]
    norm_num
    rw [show (6000000 : Rat) = ((6000000 : Int) : Rat) by norm_num]
    rw [pythonRound_intCast]

/-- Claim C3, amended to what the code computes: the function returns 0 only
when no calibration has been recorded yet (`_last_dac_calibration_time_us`
is 0, the deque is empty, or the newest pair's loop time is 0); with exactly
one pair it extrapolates from that pair with slope 1; with at least two pairs
whose last two entries have distinct monotonic times and a nonzero previous
entry, it returns the rounded extrapolation
`round(dac1 + (monotonic - m1) * slope)` with the slope
`(dac1 - dac0) / (m1 - m0)` clamped into [0.999, 1.001]. -/
theorem c3_dac_estimate_cases (env : TimeEnv) (s : AudioPlayer) (ts : Int) :
    (s.lastDacCalibrationTimeUs = 0 →
      estimateDacTimeForServerTimestamp env s ts = 0) ∧
    (s.dacLoopCalibrations = [] →
      estimateDacTimeForServerTimestamp env s ts = 0) ∧
    (∀ d1 m1, s.dacLoopCalibrations = [(d1, m1)] →
      s.lastDacCalibrationTimeUs ≠ 0 → m1 ≠ 0 →
      estimateDacTimeForServerTimestamp env s ts =
        pythonRound (d1 + (env.computeClientTime ts - m1) * 1)) ∧
    (∀ d1 m1 d0 m0 rest, s.dacLoopCalibrations = (d1, m1) :: (d0, m0) :: rest →
      s.lastDacCalibrationTimeUs ≠ 0 → m1 ≠ 0 → m0 ≠ 0 → d0 ≠ 0 → m1 ≠ m0 →
      estimateDacTimeForServerTimestamp env s ts =
        pythonRound (d1 + (env.computeClientTime ts - m1) *
          (max dacPerLoopMin (min dacPerLoopMax
            ((d1 - d0 : Int) / (m1 - m0 : Int)))))) := by
  refine ⟨?_, ?_, ?_, ?_⟩
  · intro h
    simp [estimateDacTimeForServerTimestamp, h]
  · intro h
    by_cases hl : s.lastDacCalibrationTimeUs = 0
    · simp [estimateDacTimeForServerTimestamp, hl]
    · simp [estimateDacTimeForServerTimestamp, hl, h]
  · intro d1 m1 hlist hlast hm1
    simp only [estimateDacTimeForServerTimestamp, hlist, if_neg hlast]
    simp only [if_neg hm1]
    simp
  · intro d1 m1 d0 m0 rest hlist hlast hm1 hm0 hd0 hne
    simp only [estimateDacTimeForServerTimestamp, hlist, if_neg hlast]
    simp only [if_neg hm1]
    have hcond : m0 ≠ 0 ∧ d0 ≠ 0 ∧ m1 ≠ m0 := ⟨hm0, hd0, hne⟩
    simp only [if_pos hcond]

/-- Witness for C3: a concrete two-pair calibration state in which the
clamped-slope extrapolation formula of the amended claim is exercised. -/
theorem c3_dac_estimate_cases_witness :
    estimateDacTimeForServerTimestamp envId
      { initPlayer (some ⟨2, 1000, 4⟩) with
        dacLoopCalibrations := [(5000000, 2000000), (3000000, 1000000)],
        lastDacCalibrationTimeUs := 2000000 } 7000000 =
      pythonRound (5000000 + ((7000000 : Int) - 2000000) *
        (max dacPerLoopMin (min dacPerLoopMax
          ((5000000 - 3000000 : Int) / ((2000000 - 1000000 : Int) : Rat))))) :=
  (c3_dac_estimate_cases envId
    { initPlayer (some ⟨2, 1000, 4⟩) with
      dacLoopCalibrations := [(5000000, 2000000), (3000000, 1000000)],
      lastDacCalibrationTimeUs := 2000000 } 7000000).2.2.2
    5000000 2000000 3000000 1000000 [] rfl (by decide) (by decide) (by decide)
    (by decide) (by decide)

/-- The start-scheduling phase touches only the scheduling fields: queue,
durations, cursors, cooldown anchor, format and flags are unchanged, and the
playback state either stays or becomes `WAITING_FOR_START`. -/
theorem submitSchedulePhase_preserves (env : TimeEnv) (s : AudioPlayer)
    (ts nowUs : Int) :
    (submitSchedulePhase env s ts nowUs).queue = s.queue ∧
    (submitSchedulePhase env s ts nowUs).queuedDurationUs = s.queuedDurationUs ∧
    (submitSchedulePhase env s ts nowUs).expectedNextTimestamp = s.expectedNextTimestamp ∧
    (submitSchedulePhase env s ts nowUs).lastKnownPlaybackPositionUs =
      s.lastKnownPlaybackPositionUs ∧
    (submitSchedulePhase env s ts nowUs).serverTsCursorUs = s.serverTsCursorUs ∧
    (submitSchedulePhase env s ts nowUs).lastReanchorLoopTimeUs = s.lastReanchorLoopTimeUs ∧
    (submitSchedulePhase env s ts nowUs).format = s.format ∧
    (submitSchedulePhase env s ts nowUs).streamStarted = s.streamStarted ∧
    (submitSchedulePhase env s ts nowUs).clearRequested = s.clearRequested ∧
    ((submitSchedulePhase env s ts nowUs).playbackState = s.playbackState ∨
      (submitSchedulePhase env s ts nowUs).playbackState = .WAITING_FOR_START) := by
  unfold submitSchedulePhase
  split_ifs <;> simp <;> split_ifs <;> simp

/-- When the corrector does not re-anchor, it touches only the cadence and
filter fields. -/
theorem updateCorrectionSchedule_noReanchor_preserves (s : AudioPlayer)
    (nowUs : Int) (filteredErr : Rat)
    (h : (updateCorrectionSchedule s nowUs filteredErr).2 = false) :
    (updateCorrectionSchedule s nowUs filteredErr).1.queue = s.queue ∧
    (updateCorrectionSchedule s nowUs filteredErr).1.queuedDurationUs = s.queuedDurationUs ∧
    (updateCorrectionSchedule s nowUs filteredErr).1.expectedNextTimestamp =
      s.expectedNextTimestamp ∧
    (updateCorrectionSchedule s nowUs filteredErr).1.format = s.format ∧
    (updateCorrectionSchedule s nowUs filteredErr).1.streamStarted = s.streamStarted ∧
    (updateCorrectionSchedule s nowUs filteredErr).1.playbackState = s.playbackState := by
  rcases hfm : s.format with _ | f
  · unfold updateCorrectionSchedule at h ⊢
    simp only [hfm] at h ⊢
    simp_all
  · unfold updateCorrectionSchedule at h ⊢
    simp only [hfm] at h ⊢
    split_ifs at h ⊢ <;> simp_all

/-- The corrector's re-anchor branch requires a >500 ms filtered error, the
`PLAYING` state and an elapsed 5 s cooldown; otherwise its flag is false. -/
theorem updateCorrectionSchedule_reanchor_false (s : AudioPlayer) (nowUs : Int)
    (filteredErr : Rat)
    (h : ¬(500000 < |filteredErr| ∧ s.playbackState = .PLAYING ∧
        5000000 < nowUs - s.lastReanchorLoopTimeUs)) :
    (updateCorrectionSchedule s nowUs filteredErr).2 = false := by
  rcases hfm : s.format with _ | f
  · simp [updateCorrectionSchedule, hfm]
  · unfold updateCorrectionSchedule
    simp only [hfm]
    split_ifs with h1 h2 h3 h4 h5 <;>
      first
      | rfl
      | exact absurd h3 (by simpa using h)

/-- The corrector phase of `submit` under a no-re-anchor environment: the
flag is false and the ingress-visible fields are unchanged. -/
theorem submitCorrectorPhase_preserves (s : AudioPlayer) (nowUs : Int)
    (filteredErr : Rat)
    (h : ¬(500000 < |filteredErr| ∧ s.playbackState = .PLAYING ∧
        5000000 < nowUs - s.lastReanchorLoopTimeUs)) :
    (submitCorrectorPhase s nowUs filteredErr).2 = false ∧
    (submitCorrectorPhase s nowUs filteredErr).1.queue = s.queue ∧
    (submitCorrectorPhase s nowUs filteredErr).1.queuedDurationUs = s.queuedDurationUs ∧
    (submitCorrectorPhase s nowUs filteredErr).1.expectedNextTimestamp =
      s.expectedNextTimestamp ∧
    (submitCorrectorPhase s nowUs filteredErr).1.format = s.format ∧
    (submitCorrectorPhase s nowUs filteredErr).1.streamStarted = s.streamStarted := by
  unfold submitCorrectorPhase
  split_ifs with hrun
  · have hflag := updateCorrectionSchedule_reanchor_false s nowUs filteredErr h
    have hpres := updateCorrectionSchedule_noReanchor_preserves s nowUs filteredErr hflag
    exact ⟨hflag, hpres.1, hpres.2.1, hpres.2.2.1, hpres.2.2.2.1, hpres.2.2.2.2.1⟩
  · exact ⟨rfl, rfl, rfl, rfl, rfl, rfl⟩

/-- Counterexample to C2 as stated: at sample rate 3 Hz (any rate not
dividing 1e6 behaves alike), submitting the same one-frame chunk twice gives
a second call whose overlap `expected - ts = 333333` equals the payload's
duration as the code accounts it, yet the trim converts 333333 µs back to 0
frames, so the entire chunk is enqueued again instead of being dropped: the
queue and the queued-duration counter change. -/
theorem c2_counterexample_full_overlap_requeues :
    (submit envId (initPlayer (some ⟨1, 3, 2⟩)) 0 [7, 7] 0 0).queue =
      [⟨0, [7, 7]⟩] ∧
    (submit envId (initPlayer (some ⟨1, 3, 2⟩)) 0 [7, 7] 0 0).expectedNextTimestamp =
      some 333333 ∧
    ((333333 : Int) - 0 = (([7, 7] : List Nat).length / 2 * 1000000 : Nat) / 3) ∧
    (submit envId (submit envId (initPlayer (some ⟨1, 3, 2⟩)) 0 [7, 7] 0 0)
        0 [7, 7] 0 0).queue =
      [⟨0, [7, 7]⟩, ⟨333333, [7, 7]⟩] := by
  refine ⟨by decide, by decide, by decide, by decide⟩

/-- Claim C2, amended to the code's frame quantization: in a submit call with
`ts < expected` (and no concurrent clear or re-anchor), the overlap is first
converted to whole frames, `trimBytes = ((expected - ts) * sample_rate //
1e6) * frame_size`.  When that trim covers the whole payload the call is a
no-op on the queue, the queued-duration counter and the expected-next
timestamp; otherwise exactly `trimBytes` leading bytes are trimmed and the
chunk is enqueued with its effective timestamp set to `expected`.  (As the
counterexample shows, an overlap equal to the payload's accounted duration
need not cover all its frames when the sample rate does not divide 1e6.) -/
theorem c2_overlap_trim_cases (env : TimeEnv) (s : AudioPlayer) (f : PCMFormat)
    (expected tsIn nowUs : Int) (payload : List Nat) (filteredErr : Rat)
    (hf : s.format = some f) (hfs : f.frame_size ≠ 0)
    (halign : payload.length % f.frame_size = 0)
    (hcr : s.clearRequested = false)
    (hexp : s.expectedNextTimestamp = some expected)
    (hov : tsIn < expected)
    (hnr : ¬(500000 < |filteredErr| ∧ s.playbackState = .PLAYING ∧
        5000000 < nowUs - s.lastReanchorLoopTimeUs)) :
    (payload.length ≤ (((expected - tsIn) * f.sample_rate).fdiv 1000000 * f.frame_size).toNat →
      (submit env s tsIn payload nowUs filteredErr).queue = s.queue ∧
      (submit env s tsIn payload nowUs filteredErr).queuedDurationUs = s.queuedDurationUs ∧
      (submit env s tsIn payload nowUs filteredErr).expectedNextTimestamp = some expected) ∧
    ((((expected - tsIn) * f.sample_rate).fdiv 1000000 * f.frame_size).toNat < payload.length →
      (submit env s tsIn payload nowUs filteredErr).queue = s.queue ++
        [⟨expected, payload.drop
          (((expected - tsIn) * f.sample_rate).fdiv 1000000 * f.frame_size).toNat⟩] ∧
      (submit env s tsIn payload nowUs filteredErr).expectedNextTimestamp =
        some (expected + ((payload.length -
            (((expected - tsIn) * f.sample_rate).fdiv 1000000 * f.frame_size).toNat) /
          f.frame_size * 1000000 : Nat) / f.sample_rate) ∧
      (submit env s tsIn payload nowUs filteredErr).queuedDurationUs =
        s.queuedDurationUs + ((payload.length -
            (((expected - tsIn) * f.sample_rate).fdiv 1000000 * f.frame_size).toNat) /
          f.frame_size * 1000000 : Nat) / f.sample_rate) := by
  have hsub : submit env s tsIn payload nowUs filteredErr =
      (submitBody env s tsIn payload nowUs filteredErr).1 := by
    unfold submit submitR
    rw [if_neg (by simp [hcr])]
  -- Unfold the body along the given format.
  unfold submitBody at hsub
  rw [hf] at hsub
  simp only [if_neg hfs, halign, ne_eq, not_true_eq_false, if_neg, ite_not] at hsub
  rw [if_neg not_false] at hsub
  -- Phase 1 preserves the ingress-visible fields.
  obtain ⟨hq1, hd1, he1, _hp1, _hc1, hr1, hfm1, hss1, _hcr1, hps1⟩ :=
    submitSchedulePhase_preserves env s tsIn nowUs
  set s1 := submitSchedulePhase env s tsIn nowUs with hs1
  -- Phase 2 (corrector) preserves them under the no-re-anchor hypothesis.
  have hnr1 : ¬(500000 < |filteredErr| ∧ s1.playbackState = .PLAYING ∧
      5000000 < nowUs - s1.lastReanchorLoopTimeUs) := by
    rw [hr1]
    rcases hps1 with h | h
    · rw [h]; exact hnr
    · rw [h]; intro hcon; exact absurd hcon.2.1 (by decide)
  obtain ⟨_hflag2, hq2, hd2, he2, _hfm2, hss2⟩ :=
    submitCorrectorPhase_preserves s1 nowUs filteredErr hnr1
  set s2 := (submitCorrectorPhase s1 nowUs filteredErr).1 with hs2
  -- The reconciliation takes the overlap branch.
  have hexp2 : s2.expectedNextTimestamp = some expected := by rw [he2, he1, hexp]
  have hrecon : submitReconcile f s2 tsIn payload =
      (if (((expected - tsIn) * f.sample_rate).fdiv 1000000 * f.frame_size).toNat <
          payload.length then
        some (expected, payload.drop
          (((expected - tsIn) * f.sample_rate).fdiv 1000000 * f.frame_size).toNat, s2)
      else none) := by
    unfold submitReconcile
    rw [hexp2]
    simp only [if_neg (by omega : ¬ expected < tsIn), if_pos hov]
  constructor
  · -- Full overlap: the chunk is dropped, nothing changes.
    intro hfull
    rw [hsub, hrecon, if_neg (by omega)]
    simp only
    exact ⟨by rw [hq2, hq1], by rw [hd2, hd1], hexp2⟩
  · -- Partial overlap: trim and enqueue at the expected timestamp.
    intro hpart
    rw [hsub, hrecon, if_pos hpart]
    simp only
    unfold submitEnqueue
    have hlen : 0 < (payload.drop
        (((expected - tsIn) * f.sample_rate).fdiv 1000000 * f.frame_size).toNat).length := by
      rw [List.length_drop]
      omega
    rw [if_pos hlen]
    simp only [List.length_drop]
    constructor
    · split_ifs <;> simp <;> rw [hq2, hq1]
    · constructor
      · split_ifs <;> simp
      · split_ifs <;> simp <;> rw [hd2, hd1]

/-- Witness for C2 at a sample rate dividing 1e6 (1000 Hz): a full overlap of
4 ms against 4 queued-ms of payload is dropped and the ingress state is
untouched. -/
theorem c2_overlap_trim_cases_witness :
    (submit envId
        { initPlayer (some ⟨2, 1000, 4⟩) with expectedNextTimestamp := some 4000 }
        0 (List.replicate 16 0) 0 0).queue =
      ({ initPlayer (some ⟨2, 1000, 4⟩) with
          expectedNextTimestamp := some 4000 } : AudioPlayer).queue ∧
    (submit envId
        { initPlayer (some ⟨2, 1000, 4⟩) with expectedNextTimestamp := some 4000 }
        0 (List.replicate 16 0) 0 0).queuedDurationUs =
      ({ initPlayer (some ⟨2, 1000, 4⟩) with
          expectedNextTimestamp := some 4000 } : AudioPlayer).queuedDurationUs ∧
    (submit envId
        { initPlayer (some ⟨2, 1000, 4⟩) with expectedNextTimestamp := some 4000 }
        0 (List.replicate 16 0) 0 0).expectedNextTimestamp = some 4000 :=
  (c2_overlap_trim_cases envId
    { initPlayer (some ⟨2, 1000, 4⟩) with expectedNextTimestamp := some 4000 }
    ⟨2, 1000, 4⟩ 4000 0 0 (List.replicate 16 0) 0 rfl (by decide) (by decide) rfl rfl
    (by decide) (by simp)).1 (by decide)

/-- Claim C10: a zero-length payload passes the frame-alignment check; on the
first submit after format-set or clear it computes the scheduled start,
applies the 700 ms early-start-suspect rule, records the first server
timestamp and moves to `WAITING_FOR_START`, yet enqueues nothing, leaves the
queued duration at 0 and does not start the stream. -/
theorem c10_empty_payload_first_submit (env : TimeEnv) (s : AudioPlayer)
    (f : PCMFormat) (ts nowUs : Int) (filteredErr : Rat)
    (hf : s.format = some f) (hfs : f.frame_size ≠ 0)
    (hcr : s.clearRequested = false)
    (hsch : s.scheduledStartLoopTimeUs = none)
    (hexp : s.expectedNextTimestamp = none)
    (hq : s.queue = [])
    (hdur : s.queuedDurationUs = 0)
    (hdac : s.lastDacCalibrationTimeUs = 0)
    (hes : s.earlyStartSuspect = false)
    (hst : s.playbackState = .INITIALIZING) :
    (submit env s ts [] nowUs filteredErr).playbackState = .WAITING_FOR_START ∧
    (submit env s ts [] nowUs filteredErr).scheduledStartLoopTimeUs =
      some (env.computeClientTime ts) ∧
    (submit env s ts [] nowUs filteredErr).scheduledStartDacTimeUs = none ∧
    (submit env s ts [] nowUs filteredErr).firstServerTimestampUs = some ts ∧
    ((submit env s ts [] nowUs filteredErr).earlyStartSuspect = true ↔
      env.computeClientTime ts - nowUs ≤ 700000) ∧
    (submit env s ts [] nowUs filteredErr).queue = [] ∧
    (submit env s ts [] nowUs filteredErr).queuedDurationUs = 0 ∧
    (submit env s ts [] nowUs filteredErr).expectedNextTimestamp = some ts ∧
    (submit env s ts [] nowUs filteredErr).streamStarted = s.streamStarted := by
  have hsub : submit env s ts [] nowUs filteredErr =
      (submitBody env s ts [] nowUs filteredErr).1 := by
    unfold submit submitR
    rw [if_neg (by simp [hcr])]
  unfold submitBody at hsub
  rw [hf] at hsub
  simp only [if_neg hfs, List.length_nil, Nat.zero_mod, ne_eq, not_true_eq_false,
    if_neg not_false, ite_not] at hsub
  -- The schedule phase takes the first-chunk branch.
  have hphase : submitSchedulePhase env s ts nowUs =
      (if env.computeClientTime ts - nowUs ≤ 700000 then
        { s with
          scheduledStartLoopTimeUs := some (env.computeClientTime ts),
          scheduledStartDacTimeUs := none,
          playbackState := .WAITING_FOR_START,
          firstServerTimestampUs := some ts,
          earlyStartSuspect := true }
      else
        { s with
          scheduledStartLoopTimeUs := some (env.computeClientTime ts),
          scheduledStartDacTimeUs := none,
          playbackState := .WAITING_FOR_START,
          firstServerTimestampUs := some ts }) := by
    unfold submitSchedulePhase
    rw [if_pos hsch]
    have hest : estimateDacTimeForServerTimestamp env
        { s with scheduledStartLoopTimeUs := some (env.computeClientTime ts) } ts = 0 := by
      unfold estimateDacTimeForServerTimestamp
      rw [if_pos (by simpa using hdac)]
    simp only [hest, ne_eq, not_true_eq_false, if_neg not_false, ite_not]
  rw [hphase] at hsub
  by_cases hearly : env.computeClientTime ts - nowUs ≤ 700000 <;>
    [rw [if_pos hearly] at hsub; rw [if_neg hearly] at hsub] <;>
  · rw [show submitCorrectorPhase _ nowUs filteredErr = (_, false) from rfl] at hsub
    simp only [submitCorrectorPhase, submitReconcile, submitEnqueue, hexp] at hsub
    split_ifs at hsub <;>
      simp_all [hq, hdur, hes] <;> omega

/-- Witness for C10: the first submit of an empty payload on a fresh player
schedules a start 500 ms away (early-start suspect), waits, and queues
nothing. -/
theorem c10_empty_payload_first_submit_witness :
    (submit envId (initPlayer (some ⟨2, 1000, 4⟩)) 500000 [] 0 0).playbackState =
      .WAITING_FOR_START ∧
    (submit envId (initPlayer (some ⟨2, 1000, 4⟩)) 500000 [] 0 0).scheduledStartLoopTimeUs =
      some (envId.computeClientTime 500000) ∧
    (submit envId (initPlayer (some ⟨2, 1000, 4⟩)) 500000 [] 0 0).scheduledStartDacTimeUs =
      none ∧
    (submit envId (initPlayer (some ⟨2, 1000, 4⟩)) 500000 [] 0 0).firstServerTimestampUs =
      some 500000 ∧
    ((submit envId (initPlayer (some ⟨2, 1000, 4⟩)) 500000 [] 0 0).earlyStartSuspect = true ↔
      envId.computeClientTime 500000 - 0 ≤ 700000) ∧
    (submit envId (initPlayer (some ⟨2, 1000, 4⟩)) 500000 [] 0 0).queue = [] ∧
    (submit envId (initPlayer (some ⟨2, 1000, 4⟩)) 500000 [] 0 0).queuedDurationUs = 0 ∧
    (submit envId (initPlayer (some ⟨2, 1000, 4⟩)) 500000 [] 0 0).expectedNextTimestamp =
      some 500000 ∧
    (submit envId (initPlayer (some ⟨2, 1000, 4⟩)) 500000 [] 0 0).streamStarted =
      (initPlayer (some ⟨2, 1000, 4⟩)).streamStarted :=
  c10_empty_payload_first_submit envId (initPlayer (some ⟨2, 1000, 4⟩)) ⟨2, 1000, 4⟩
    500000 0 0 rfl (by decide) rfl rfl rfl rfl rfl rfl rfl rfl

/-- Claim C7: on a reported underflow the callback raises the
`clear_requested` flag, fills the whole buffer with silence and returns with
every other state field (queue, cursors, cadences, calibration) untouched;
the next submit call consumes the flag and behaves exactly like a submit on
the cleared player (queue emptied, state back to `INITIALIZING`). -/
theorem c7_underflow_sets_flag_and_next_submit_clears (env : TimeEnv)
    (s s2 : AudioPlayer) (f : PCMFormat) (framesCnt : Nat) (dacTimeUs nowUs : Int)
    (ts2 : Int) (payload2 : List Nat) (now2 : Int) (ferr2 : Rat)
    (hf : s.format = some f) (h2 : s2.clearRequested = true) :
    audioCallbackCore env s framesCnt dacTimeUs nowUs true =
      ({ s with clearRequested := true }, List.replicate (framesCnt * f.frame_size) 0) ∧
    submit env s2 ts2 payload2 now2 ferr2 = submit env s2.clear ts2 payload2 now2 ferr2 ∧
    s2.clear.queue = [] ∧
    s2.clear.playbackState = .INITIALIZING ∧
    s2.clear.clearRequested = false := by
  refine ⟨?_, ?_, rfl, rfl, rfl⟩
  · unfold audioCallbackCore
    rw [hf]
    rfl
  · unfold submit submitR
    rw [if_pos h2, if_neg (by simp [AudioPlayer.clear])]

/-- Witness for C7: a concrete underflow callback and a concrete deferred
clear consumed by the next submit. -/
theorem c7_underflow_witness :
    audioCallbackCore envId (initPlayer (some ⟨2, 1000, 4⟩)) 2 0 0 true =
      ({ initPlayer (some ⟨2, 1000, 4⟩) with clearRequested := true },
        List.replicate (2 * 4) 0) ∧
    submit envId { initPlayer (some ⟨2, 1000, 4⟩) with clearRequested := true }
        0 [] 0 0 =
      submit envId
        ({ initPlayer (some ⟨2, 1000, 4⟩) with clearRequested := true } : AudioPlayer).clear
        0 [] 0 0 ∧
    ({ initPlayer (some ⟨2, 1000, 4⟩) with
        clearRequested := true } : AudioPlayer).clear.queue = [] ∧
    ({ initPlayer (some ⟨2, 1000, 4⟩) with
        clearRequested := true } : AudioPlayer).clear.playbackState = .INITIALIZING ∧
    ({ initPlayer (some ⟨2, 1000, 4⟩) with
        clearRequested := true } : AudioPlayer).clear.clearRequested = false :=
  c7_underflow_sets_flag_and_next_submit_clears envId (initPlayer (some ⟨2, 1000, 4⟩))
    { initPlayer (some ⟨2, 1000, 4⟩) with clearRequested := true } ⟨2, 1000, 4⟩
    2 0 0 0 [] 0 0 rfl rfl

/-- One `_advance_server_cursor_frames` call adds exactly `frames * 1e6` to
the accumulator quantity and keeps the remainder inside `[0, sample_rate)`. -/
theorem advanceServerCursorFrames_total (s : AudioPlayer) (f : PCMFormat)
    (frames : Int) (hf : s.format = some f) (hsr : 0 < f.sample_rate)
    (h0 : 0 ≤ s.serverTsCursorRemainder)
    (h1 : s.serverTsCursorRemainder < f.sample_rate) (hfr : 0 ≤ frames) :
    cursorTotal f (advanceServerCursorFrames s frames) =
      cursorTotal f s + frames * 1000000 ∧
    0 ≤ (advanceServerCursorFrames s frames).serverTsCursorRemainder ∧
    (advanceServerCursorFrames s frames).serverTsCursorRemainder < f.sample_rate ∧
    (advanceServerCursorFrames s frames).format = s.format := by
  have hsrZ : (0 : Int) < (f.sample_rate : Int) := by exact_mod_cast hsr
  unfold advanceServerCursorFrames
  simp only [hf]
  by_cases hle : frames ≤ 0
  · rw [if_pos hle]
    have hz : frames = 0 := le_antisymm hle hfr
    subst hz
    exact ⟨by simp [cursorTotal], h0, h1, by simp [hf]⟩
  · rw [if_neg hle]
    by_cases hbig : (f.sample_rate : Int) ≤ s.serverTsCursorRemainder + frames * 1000000
    · rw [if_pos hbig]
      refine ⟨?_, ?_, ?_, by simp [hf]⟩
      · have hdm := Int.fdiv_add_fmod (s.serverTsCursorRemainder + frames * 1000000)
          (f.sample_rate : Int)
        simp only [cursorTotal]
        ring_nf
        ring_nf at hdm
        linarith [hdm]
      · exact Int.fmod_nonneg' _ hsrZ
      · exact Int.fmod_lt_of_pos _ hsrZ
    · rw [if_neg hbig]
      push_neg at hbig
      refine ⟨?_, ?_, hbig, by simp [hf]⟩
      · simp only [cursorTotal]
        ring
      · show 0 ≤ s.serverTsCursorRemainder + frames * 1000000
        have hge : (0 : Int) ≤ frames * 1000000 := by
          have : 0 < frames := by omega
          positivity
        linarith

/-- Folding cursor advances over any partition of nonnegative frame counts
adds exactly `1e6` per frame in total and preserves the remainder invariant. -/
theorem advanceServerCursorFrames_fold (f : PCMFormat) (ps : List Int) :
    ∀ (s : AudioPlayer), s.format = some f → 0 < f.sample_rate →
      0 ≤ s.serverTsCursorRemainder → s.serverTsCursorRemainder < f.sample_rate →
      (∀ x ∈ ps, 0 ≤ x) →
      cursorTotal f (ps.foldl advanceServerCursorFrames s) =
        cursorTotal f s + ps.sum * 1000000 ∧
      0 ≤ (ps.foldl advanceServerCursorFrames s).serverTsCursorRemainder ∧
      (ps.foldl advanceServerCursorFrames s).serverTsCursorRemainder < f.sample_rate ∧
      (ps.foldl advanceServerCursorFrames s).format = some f := by
  induction ps with
  | nil =>
    intro s hf hsr h0 h1 _
    exact ⟨by simp, h0, h1, hf⟩
  | cons p rest ih =>
    intro s hf hsr h0 h1 hws
    have hp := advanceServerCursorFrames_total s f p hf hsr h0 h1 (hws p (by simp))
    have hrest := ih (advanceServerCursorFrames s p) (hp.2.2.2.trans hf) hsr hp.2.1
      hp.2.2.1 (fun x hx => hws x (by simp [hx]))
    rw [List.foldl_cons]
    refine ⟨?_, hrest.2.1, hrest.2.2.1, hrest.2.2.2⟩
    rw [hrest.1, hp.1, List.sum_cons]
    ring

/-- Advancing the cursor leaves the queue, the partial chunk, the format and
the correction bookkeeping untouched. -/
theorem advanceServerCursorFrames_chunkFields (s : AudioPlayer) (k : Int) :
    (advanceServerCursorFrames s k).queue = s.queue ∧
    (advanceServerCursorFrames s k).currentChunk = s.currentChunk ∧
    (advanceServerCursorFrames s k).currentChunkOffset = s.currentChunkOffset ∧
    (advanceServerCursorFrames s k).format = s.format ∧
    (advanceServerCursorFrames s k).playbackState = s.playbackState ∧
    (advanceServerCursorFrames s k).insertEveryNFrames = s.insertEveryNFrames ∧
    (advanceServerCursorFrames s k).dropEveryNFrames = s.dropEveryNFrames ∧
    (advanceServerCursorFrames s k).framesDroppedSinceLog = s.framesDroppedSinceLog ∧
    (advanceServerCursorFrames s k).framesInsertedSinceLog = s.framesInsertedSinceLog ∧
    (advanceServerCursorFrames s k).lastOutputFrame = s.lastOutputFrame ∧
    availableBytes (advanceServerCursorFrames s k) = availableBytes s := by
  unfold advanceServerCursorFrames
  rcases hfm : s.format with _ | f
  · simp [hfm]
  · simp only [hfm]
    split_ifs <;> simp [availableBytes, hfm]

/-- Finishing the current chunk keeps the queue, format, cursors and
correction bookkeeping, and (when the format is set) empties the
partial-chunk slot. -/
theorem advanceFinishedChunk_fields (s : AudioPlayer) :
    (advanceFinishedChunk s).queue = s.queue ∧
    (advanceFinishedChunk s).format = s.format ∧
    (advanceFinishedChunk s).playbackState = s.playbackState ∧
    (advanceFinishedChunk s).insertEveryNFrames = s.insertEveryNFrames ∧
    (advanceFinishedChunk s).dropEveryNFrames = s.dropEveryNFrames ∧
    (advanceFinishedChunk s).framesDroppedSinceLog = s.framesDroppedSinceLog ∧
    (advanceFinishedChunk s).framesInsertedSinceLog = s.framesInsertedSinceLog ∧
    (advanceFinishedChunk s).lastOutputFrame = s.lastOutputFrame ∧
    (advanceFinishedChunk s).serverTsCursorUs = s.serverTsCursorUs ∧
    (advanceFinishedChunk s).serverTsCursorRemainder = s.serverTsCursorRemainder := by
  unfold advanceFinishedChunk
  rcases hfm : s.format with _ | f
  · simp [hfm]
  · simp only [hfm]
    rcases hcc : s.currentChunk with _ | c <;> simp [hfm]

/-- Finishing a chunk whose data is fully consumed removes exactly its
residual (zero) bytes: the available count is unchanged, and the slot
empties. -/
theorem advanceFinishedChunk_available (s : AudioPlayer) (f : PCMFormat) (c : QueuedChunk)
    (hf : s.format = some f) (hcc : s.currentChunk = some c)
    (hdone : c.audio_data.length ≤ s.currentChunkOffset) :
    (advanceFinishedChunk s).currentChunk = none ∧
    (advanceFinishedChunk s).currentChunkOffset = 0 ∧
    availableBytes (advanceFinishedChunk s) = availableBytes s := by
  unfold advanceFinishedChunk
  simp only [hf, hcc]
  refine ⟨trivial, trivial, ?_⟩
  simp only [availableBytes, hcc]
  omega

/-- Popping the next chunk into the partial slot preserves the total
available bytes and the bookkeeping fields. -/
theorem initializeCurrentChunk_spec (s : AudioPlayer) (c : QueuedChunk)
    (rest : List QueuedChunk) (hq : s.queue = c :: rest) (hcc : s.currentChunk = none) :
    (initializeCurrentChunk s).currentChunk = some c ∧
    (initializeCurrentChunk s).currentChunkOffset = 0 ∧
    (initializeCurrentChunk s).queue = rest ∧
    availableBytes (initializeCurrentChunk s) = availableBytes s ∧
    (initializeCurrentChunk s).format = s.format ∧
    (initializeCurrentChunk s).playbackState = s.playbackState ∧
    (initializeCurrentChunk s).insertEveryNFrames = s.insertEveryNFrames ∧
    (initializeCurrentChunk s).dropEveryNFrames = s.dropEveryNFrames ∧
    (initializeCurrentChunk s).framesDroppedSinceLog = s.framesDroppedSinceLog ∧
    (initializeCurrentChunk s).framesInsertedSinceLog = s.framesInsertedSinceLog ∧
    (initializeCurrentChunk s).lastOutputFrame = s.lastOutputFrame := by
  unfold initializeCurrentChunk
  simp only [hq]
  split_ifs <;> simp [availableBytes, hcc, hq]

/-- Exactness of the bulk-read loop: with a configured format and enough
queued data, the loop reads exactly `needed` bytes — the returned buffer has
length `needed`, the byte counter equals `needed`, and the available bytes
shrink by exactly the bytes appended to the accumulator. -/
theorem readBulkLoop_exact (f : PCMFormat) (fs needed : Nat) :
    ∀ (fuel : Nat) (s : AudioPlayer) (acc : List Nat),
      s.format = some f →
      needed ≤ acc.length + availableBytes s →
      acc.length ≤ needed →
      needed - acc.length + 2 * s.queue.length +
        (match s.currentChunk with | none => 1 | some _ => 2) ≤ fuel →
      (readBulkLoop fuel s fs needed acc).2.1 = needed ∧
      (readBulkLoop fuel s fs needed acc).1.length = needed ∧
      availableBytes (readBulkLoop fuel s fs needed acc).2.2 =
        acc.length + availableBytes s - needed := by
  intro fuel
  induction fuel with
  | zero =>
    intro s acc _ _ _ h3
    exfalso
    rcases hcc : s.currentChunk with _ | c <;> simp only [hcc] at h3 <;> omega
  | succ fuel ih =>
    intro s acc hf h1 h2 h3
    rw [readBulkLoop]
    by_cases hfull : needed ≤ acc.length
    · rw [if_pos hfull]
      have heq : acc.length = needed := le_antisymm h2 hfull
      exact ⟨heq, heq,
        show availableBytes s = acc.length + availableBytes s - needed by omega⟩
    · rw [if_neg hfull]
      rcases hcc : s.currentChunk with _ | chunk
      · -- No current chunk: pop the queue (it cannot be empty here).
        rcases hq : s.queue with _ | ⟨c, rest⟩
        · exfalso
          have hav : availableBytes s = 0 := by simp [availableBytes, hcc, hq]
          omega
        · rw [if_neg (show ¬(c :: rest = []) from by simp)]
          obtain ⟨ic1, ic2, ic3, ic4, ic5, _⟩ := initializeCurrentChunk_spec s c rest hq hcc
          have hres := ih (initializeCurrentChunk s) acc (ic5.trans hf) (by omega) h2 (by
            rw [ic3]
            simp only [ic1]
            have hql : s.queue.length = rest.length + 1 := by rw [hq]; simp
            simp only [hcc] at h3
            omega)
          rw [← ic4]
          exact hres
      · -- Read from the current chunk.
        simp only [hcc]
        set tr := min (chunk.audio_data.length - s.currentChunkOffset) (needed - acc.length)
          with htr
        have hpiece : ((chunk.audio_data.drop s.currentChunkOffset).take tr).length = tr := by
          simp [List.length_take, List.length_drop]
          omega
        have hs1f :
            ({ s with currentChunk := some chunk, currentChunkOffset := s.currentChunkOffset + tr } : AudioPlayer).format =
            some f := hf
        have hXq :
            ({ s with currentChunk := some chunk, currentChunkOffset := s.currentChunkOffset + tr } : AudioPlayer).queue =
            s.queue := rfl
        have hXcc :
            ({ s with currentChunk := some chunk, currentChunkOffset := s.currentChunkOffset + tr } : AudioPlayer).currentChunk =
            some chunk := rfl
        obtain ⟨ac1, ac2, ac3, ac4, _, _, _, _, _, _, ac11⟩ :=
          advanceServerCursorFrames_chunkFields
            { s with currentChunk := some chunk, currentChunkOffset := s.currentChunkOffset + tr } ((tr / fs : Nat) : Int)
        have htle : tr ≤ availableBytes s := by
          simp only [availableBytes, hcc]
          omega
        have hsav : availableBytes (advanceServerCursorFrames
            { s with currentChunk := some chunk, currentChunkOffset := s.currentChunkOffset + tr } ((tr / fs : Nat) : Int)) =
            availableBytes s - tr := by
          rw [ac11]
          simp only [availableBytes, hcc]
          omega
        split_ifs with hcond
        · -- Chunk finished: clear the slot, then recurse.
          obtain ⟨af1, af2, af3⟩ := advanceFinishedChunk_available _ f chunk
            (ac4.trans hs1f) ac2 hcond
          have haff := advanceFinishedChunk_fields (advanceServerCursorFrames
            { s with currentChunk := some chunk, currentChunkOffset := s.currentChunkOffset + tr } ((tr / fs : Nat) : Int))
          have hres := ih _ (acc ++ (chunk.audio_data.drop s.currentChunkOffset).take tr)
            (haff.2.1.trans (ac4.trans hf))
            (by rw [af3, hsav, List.length_append, hpiece]; omega)
            (by rw [List.length_append, hpiece]; omega)
            (by
              rw [haff.1, ac1, hXq, List.length_append, hpiece]
              simp only [af1]
              simp only [hcc] at h3
              omega)
          rw [List.length_append, hpiece] at hres
          refine ⟨hres.1, hres.2.1, ?_⟩
          rw [hres.2.2, af3, hsav]
          omega
        · -- Chunk not finished: recurse with the advanced offset.
          have hcond3 : ¬ chunk.audio_data.length ≤ s.currentChunkOffset + tr := by
            rw [ac3] at hcond
            exact hcond
          have hres := ih _ (acc ++ (chunk.audio_data.drop s.currentChunkOffset).take tr)
            (ac4.trans hf)
            (by rw [hsav, List.length_append, hpiece]; omega)
            (by rw [List.length_append, hpiece]; omega)
            (by
              rw [List.length_append, hpiece, ac1, hXq]
              simp only [ac2, hXcc]
              simp only [hcc] at h3
              omega)
          rw [List.length_append, hpiece] at hres
          refine ⟨hres.1, hres.2.1, ?_⟩
          rw [hres.2.2, hsav]
          omega

/-- `_read_input_frames_bulk` with sufficient queued data returns exactly
`n * frame_size` bytes and consumes exactly that many bytes from the queue. -/
theorem readInputFramesBulk_exact (s : AudioPlayer) (f : PCMFormat) (n : Nat)
    (hf : s.format = some f) (hfs : 0 < f.frame_size)
    (hav : n * f.frame_size ≤ availableBytes s) :
    (readInputFramesBulk s n).1.length = n * f.frame_size ∧
    availableBytes (readInputFramesBulk s n).2 =
      availableBytes s - n * f.frame_size := by
  unfold readInputFramesBulk
  simp only [hf]
  by_cases hn : n = 0
  · subst hn
    simp
  · rw [if_neg hn]
    have hfuel : n * f.frame_size - ([] : List Nat).length + 2 * s.queue.length +
        (match s.currentChunk with | none => 1 | some _ => 2) ≤
        n * f.frame_size + 2 * s.queue.length + 3 := by
      rcases s.currentChunk <;> simp <;> omega
    obtain ⟨hbw, hlen, hav2⟩ := readBulkLoop_exact f f.frame_size (n * f.frame_size)
      (n * f.frame_size + 2 * s.queue.length + 3) s [] hf (by simpa using hav)
      (by simp) hfuel
    refine ⟨hlen, ?_⟩
    simp only
    split_ifs with hb
    · simpa [availableBytes] using hav2
    · simpa using hav2

/-- Claim C8: the source read cursor's accumulator `sample_rate * cursor +
remainder` grows by exactly `F * 1e6` over any partition of `F` frames across
`_advance_server_cursor_frames` calls, the remainder invariant
`0 ≤ remainder < sample_rate` is preserved by every call, and a fast-path
bulk read of `F` frames with sufficient queued data consumes exactly
`F * frame_size` bytes from the queue. -/
theorem c8_cursor_and_consumption_exact (f : PCMFormat) (ps : List Int)
    (s s2 : AudioPlayer) (bigF : Nat)
    (hf : s.format = some f) (hsr : 0 < f.sample_rate)
    (h0 : 0 ≤ s.serverTsCursorRemainder)
    (h1 : s.serverTsCursorRemainder < f.sample_rate)
    (hps : ∀ x ∈ ps, 0 ≤ x)
    (hf2 : s2.format = some f) (hfs : 0 < f.frame_size)
    (hav : bigF * f.frame_size ≤ availableBytes s2) :
    (cursorTotal f (ps.foldl advanceServerCursorFrames s) =
        cursorTotal f s + ps.sum * 1000000 ∧
      0 ≤ (ps.foldl advanceServerCursorFrames s).serverTsCursorRemainder ∧
      (ps.foldl advanceServerCursorFrames s).serverTsCursorRemainder < f.sample_rate) ∧
    ((readInputFramesBulk s2 bigF).1.length = bigF * f.frame_size ∧
      availableBytes (readInputFramesBulk s2 bigF).2 =
        availableBytes s2 - bigF * f.frame_size) := by
  have hfold := advanceServerCursorFrames_fold f ps s hf hsr h0 h1 hps
  have hbulk := readInputFramesBulk_exact s2 f bigF hf2 hfs hav
  exact ⟨⟨hfold.1, hfold.2.1, hfold.2.2.1⟩, hbulk⟩

/-- Witness for C8 at 1000 Hz: advancing by 3 frames as 1+2 adds exactly
3e6 to the accumulator, and bulk-reading 2 frames from an 4-frame chunk
consumes 8 bytes. -/
theorem c8_cursor_and_consumption_exact_witness :
    (cursorTotal ⟨2, 1000, 4⟩
        (([1, 2] : List Int).foldl advanceServerCursorFrames (initPlayer (some ⟨2, 1000, 4⟩))) =
      cursorTotal ⟨2, 1000, 4⟩ (initPlayer (some ⟨2, 1000, 4⟩)) +
        ([1, 2] : List Int).sum * 1000000 ∧
      0 ≤ (([1, 2] : List Int).foldl advanceServerCursorFrames
        (initPlayer (some ⟨2, 1000, 4⟩))).serverTsCursorRemainder ∧
      (([1, 2] : List Int).foldl advanceServerCursorFrames
        (initPlayer (some ⟨2, 1000, 4⟩))).serverTsCursorRemainder < (1000 : Nat)) ∧
    ((readInputFramesBulk
        { initPlayer (some ⟨2, 1000, 4⟩) with
          queue := [⟨0, List.replicate 16 7⟩] } 2).1.length = 2 * 4 ∧
      availableBytes (readInputFramesBulk
        { initPlayer (some ⟨2, 1000, 4⟩) with
          queue := [⟨0, List.replicate 16 7⟩] } 2).2 =
        availableBytes { initPlayer (some ⟨2, 1000, 4⟩) with
          queue := [⟨0, List.replicate 16 7⟩] } - 2 * 4) :=
  c8_cursor_and_consumption_exact ⟨2, 1000, 4⟩ [1, 2] (initPlayer (some ⟨2, 1000, 4⟩))
    { initPlayer (some ⟨2, 1000, 4⟩) with queue := [⟨0, List.replicate 16 7⟩] } 2
    rfl (by decide) (by decide) (by decide) (by decide) rfl (by decide) (by decide)

/-- Popping a chunk leaves the format, playback state and correction
bookkeeping untouched. -/
theorem initializeCurrentChunk_fields (s : AudioPlayer) :
    (initializeCurrentChunk s).format = s.format ∧
    (initializeCurrentChunk s).playbackState = s.playbackState ∧
    (initializeCurrentChunk s).insertEveryNFrames = s.insertEveryNFrames ∧
    (initializeCurrentChunk s).dropEveryNFrames = s.dropEveryNFrames ∧
    (initializeCurrentChunk s).framesDroppedSinceLog = s.framesDroppedSinceLog ∧
    (initializeCurrentChunk s).framesInsertedSinceLog = s.framesInsertedSinceLog ∧
    (initializeCurrentChunk s).lastOutputFrame = s.lastOutputFrame := by
  unfold initializeCurrentChunk
  rcases hq : s.queue with _ | ⟨c, rest⟩
  · simp
  · simp only [hq]
    split_ifs <;> simp


/-- `sameSched` is transitive. -/
theorem sameSched_trans {u t s : AudioPlayer} (h1 : sameSched u t) (h2 : sameSched t s) :
    sameSched u s :=
  ⟨h1.1.trans h2.1, h1.2.1.trans h2.2.1, h1.2.2.1.trans h2.2.2.1,
   h1.2.2.2.1.trans h2.2.2.2.1, h1.2.2.2.2.1.trans h2.2.2.2.2.1,
   h1.2.2.2.2.2.trans h2.2.2.2.2.2⟩

/-- `sameSched` is reflexive. -/
theorem sameSched_refl (s : AudioPlayer) : sameSched s s :=
  ⟨rfl, rfl, rfl, rfl, rfl, rfl⟩

/-- Popping a chunk preserves the bookkeeping fields and `_last_output_frame`. -/
theorem sameSched_initializeCurrentChunk (s : AudioPlayer) :
    sameSched (initializeCurrentChunk s) s ∧
    (initializeCurrentChunk s).lastOutputFrame = s.lastOutputFrame := by
  obtain ⟨h1, h2, h3, h4, h5, h6, h7⟩ := initializeCurrentChunk_fields s
  exact ⟨⟨h1, h2, h3, h4, h5, h6⟩, h7⟩

/-- Finishing a chunk preserves the bookkeeping fields and
`_last_output_frame`. -/
theorem sameSched_advanceFinishedChunk (s : AudioPlayer) :
    sameSched (advanceFinishedChunk s) s ∧
    (advanceFinishedChunk s).lastOutputFrame = s.lastOutputFrame := by
  obtain ⟨_, h2, h3, h4, h5, h6, h7, h8, _, _⟩ := advanceFinishedChunk_fields s
  exact ⟨⟨h2, h3, h4, h5, h6, h7⟩, h8⟩

/-- Advancing the cursor preserves the bookkeeping fields and
`_last_output_frame`. -/
theorem sameSched_advanceServerCursorFrames (s : AudioPlayer) (k : Int) :
    sameSched (advanceServerCursorFrames s k) s ∧
    (advanceServerCursorFrames s k).lastOutputFrame = s.lastOutputFrame := by
  obtain ⟨_, _, _, h4, h5, h6, h7, h8, h9, h10, _⟩ :=
    advanceServerCursorFrames_chunkFields s k
  exact ⟨⟨h4, h5, h6, h7, h8, h9⟩, h10⟩

/-- Reading one frame preserves the bookkeeping fields and
`_last_output_frame`. -/
theorem sameSched_readOneInputFrame (s : AudioPlayer) :
    sameSched (readOneInputFrame s).2 s ∧
    (readOneInputFrame s).2.lastOutputFrame = s.lastOutputFrame := by
  unfold readOneInputFrame
  rcases hfm : s.format with _ | f
  · exact ⟨sameSched_refl s, rfl⟩
  · simp only [hfm]
    by_cases hfs : f.frame_size = 0
    · rw [if_pos hfs]
      exact ⟨sameSched_refl s, rfl⟩
    · rw [if_neg hfs]
      have hstep1 : sameSched (if s.currentChunk = none then
            (if s.queue = [] then s else initializeCurrentChunk s) else s) s ∧
          (if s.currentChunk = none then
            (if s.queue = [] then s else initializeCurrentChunk s) else s).lastOutputFrame =
            s.lastOutputFrame := by
        split_ifs
        · exact ⟨sameSched_refl s, rfl⟩
        · exact sameSched_initializeCurrentChunk s
        · exact ⟨sameSched_refl s, rfl⟩
      set s1 := if s.currentChunk = none then
        (if s.queue = [] then s else initializeCurrentChunk s) else s with hs1
      rcases hcc : s1.currentChunk with _ | chunk
      · simp only [hcc]
        exact hstep1
      · simp only [hcc]
        have comp : ∀ t : AudioPlayer, sameSched t s1 → t.lastOutputFrame = s1.lastOutputFrame →
            sameSched t s ∧ t.lastOutputFrame = s.lastOutputFrame := fun t h1 h2 =>
          ⟨sameSched_trans h1 hstep1.1, h2.trans hstep1.2⟩
        have hA : ∀ t : AudioPlayer, sameSched t s1 → t.lastOutputFrame = s1.lastOutputFrame →
            sameSched (advanceFinishedChunk t) s1 ∧
            (advanceFinishedChunk t).lastOutputFrame = s1.lastOutputFrame := fun t h1 h2 =>
          ⟨sameSched_trans (sameSched_advanceFinishedChunk t).1 h1,
           ((sameSched_advanceFinishedChunk t).2).trans h2⟩
        have hB : ∀ t : AudioPlayer, sameSched t s1 → t.lastOutputFrame = s1.lastOutputFrame →
            sameSched (advanceServerCursorFrames t 1) s1 ∧
            (advanceServerCursorFrames t 1).lastOutputFrame = s1.lastOutputFrame := fun t h1 h2 =>
          ⟨sameSched_trans (sameSched_advanceServerCursorFrames t 1).1 h1,
           ((sameSched_advanceServerCursorFrames t 1).2).trans h2⟩
        have hR : ∀ e : Nat, sameSched ({ s1 with currentChunk := some chunk, currentChunkOffset := e } : AudioPlayer) s1 ∧ ({ s1 with currentChunk := some chunk, currentChunkOffset := e } : AudioPlayer).lastOutputFrame = s1.lastOutputFrame :=
          fun e => ⟨⟨rfl, rfl, rfl, rfl, rfl, rfl⟩, rfl⟩
        split_ifs
        all_goals
          first
          | exact comp _ (hA s1 (sameSched_refl s1) rfl).1 (hA s1 (sameSched_refl s1) rfl).2
          | exact comp _ (hA _ (hB _ (hR _).1 (hR _).2).1 (hB _ (hR _).1 (hR _).2).2).1 (hA _ (hB _ (hR _).1 (hR _).2).1 (hB _ (hR _).1 (hR _).2).2).2
          | exact comp _ (hB _ (hR _).1 (hR _).2).1 (hB _ (hR _).1 (hR _).2).2

/-- Unfolding of the audio callback for a non-underflow invocation with a
known format: position update, then start gating while waiting, then sample
emission. -/
theorem audioCallbackCore_step (env : TimeEnv) (s : AudioPlayer) (n : Nat)
    (dac now : Int) (f : PCMFormat) (hf : s.format = some f) :
    audioCallbackCore env s n dac now false =
      (let s1 := updatePlaybackPositionFromDac env s dac now
       if s1.playbackState = .WAITING_FOR_START then
         let g := handleStartGating s1 [] 0 n dac now
         if g.2.2.playbackState = .WAITING_FOR_START then
           (g.2.2, g.1 ++ List.replicate (n * f.frame_size - g.2.1) 0)
         else emitFrames g.2.2 f n g.1
       else emitFrames s1 f n []) := by
  unfold audioCallbackCore
  simp only [hf, Bool.false_eq_true, if_false]


/-- First event of the C1 trace: the initial submit schedules the start. -/
theorem c1_trace_step1 : stepEvent envId (initPlayer (some ⟨2, 1000, 4⟩)) (.submitEv 1000000 (List.replicate 16 7) 10000000 0) = ({ initPlayer (some ⟨2, 1000, 4⟩) with queue := [⟨1000000, List.replicate 16 7⟩], streamStarted := true, expectedNextTimestamp := some 1004000, queuedDurationUs := 4000, playbackState := .WAITING_FOR_START, scheduledStartLoopTimeUs := some 1000000, firstServerTimestampUs := some 1000000, earlyStartSuspect := true }, []) := by
  decide

/-- The DAC-position update of the first callback of the C1 trace. -/
theorem c1_trace_step2a : updatePlaybackPositionFromDac envId ({ initPlayer (some ⟨2, 1000, 4⟩) with queue := [⟨1000000, List.replicate 16 7⟩], streamStarted := true, expectedNextTimestamp := some 1004000, queuedDurationUs := 4000, playbackState := .WAITING_FOR_START, scheduledStartLoopTimeUs := some 1000000, firstServerTimestampUs := some 1000000, earlyStartSuspect := true }) 20000000 10100000 = { { initPlayer (some ⟨2, 1000, 4⟩) with queue := [⟨1000000, List.replicate 16 7⟩], streamStarted := true, expectedNextTimestamp := some 1004000, queuedDurationUs := 4000, playbackState := .WAITING_FOR_START, scheduledStartLoopTimeUs := some 1000000, firstServerTimestampUs := some 1000000, earlyStartSuspect := true } with dacLoopCalibrations := [(20000000, 10100000)], lastKnownPlaybackPositionUs := 10100000, lastDacCalibrationTimeUs := 10100000, scheduledStartDacTimeUs := some 10900000 } := by
  norm_num [updatePlaybackPositionFromDac, estimateDacTimeForServerTimestamp,
    estimateLoopTimeForDacTime, calibAppend, pythonRound, envId, initPlayer,
    dacPerLoopMin, dacPerLoopMax]
  exact fun h => absurd h (by simp)

/-- Second event of the C1 trace: the start gate opens and playback begins. -/
theorem c1_trace_step2 : stepEvent envId ({ initPlayer (some ⟨2, 1000, 4⟩) with queue := [⟨1000000, List.replicate 16 7⟩], streamStarted := true, expectedNextTimestamp := some 1004000, queuedDurationUs := 4000, playbackState := .WAITING_FOR_START, scheduledStartLoopTimeUs := some 1000000, firstServerTimestampUs := some 1000000, earlyStartSuspect := true }) (.callbackEv 2 20000000 10100000 false) = ({ { initPlayer (some ⟨2, 1000, 4⟩) with queue := [⟨1000000, List.replicate 16 7⟩], streamStarted := true, expectedNextTimestamp := some 1004000, queuedDurationUs := 4000, playbackState := .WAITING_FOR_START, scheduledStartLoopTimeUs := some 1000000, firstServerTimestampUs := some 1000000, earlyStartSuspect := true } with queue := [], currentChunk := some ⟨1000000, List.replicate 16 7⟩, currentChunkOffset := 8, dacLoopCalibrations := [(20000000, 10100000)], lastKnownPlaybackPositionUs := 10100000, lastDacCalibrationTimeUs := 10100000, playbackState := .PLAYING, scheduledStartDacTimeUs := some 10900000, serverTsCursorUs := 1002000, lastOutputFrame := [7, 7, 7, 7] }, []) := by
  simp only [stepEvent]
  rw [audioCallbackCore_step envId _ 2 20000000 10100000 ⟨2, 1000, 4⟩ (by decide), c1_trace_step2a]
  decide

/-- Third event of the C1 trace: a 600 ms filtered error while playing fires
the first re-anchor at loop time 10200000; `clear` wipes the cooldown stamp
along with the queue. -/
theorem c1_trace_step3 : stepEvent envId ({ { initPlayer (some ⟨2, 1000, 4⟩) with queue := [⟨1000000, List.replicate 16 7⟩], streamStarted := true, expectedNextTimestamp := some 1004000, queuedDurationUs := 4000, playbackState := .WAITING_FOR_START, scheduledStartLoopTimeUs := some 1000000, firstServerTimestampUs := some 1000000, earlyStartSuspect := true } with queue := [], currentChunk := some ⟨1000000, List.replicate 16 7⟩, currentChunkOffset := 8, dacLoopCalibrations := [(20000000, 10100000)], lastKnownPlaybackPositionUs := 10100000, lastDacCalibrationTimeUs := 10100000, playbackState := .PLAYING, scheduledStartDacTimeUs := some 10900000, serverTsCursorUs := 1002000, lastOutputFrame := [7, 7, 7, 7] }) (.submitEv 2000000 (List.replicate 16 7) 10200000 600000) = ({ initPlayer (some ⟨2, 1000, 4⟩) with queue := [⟨2000000, List.replicate 16 7⟩], streamStarted := true, expectedNextTimestamp := some 2004000, queuedDurationUs := 4000 }, [10200000]) := by
  decide

/-- Fourth event of the C1 trace: the post-clear submit reschedules the start. -/
theorem c1_trace_step4 : stepEvent envId ({ initPlayer (some ⟨2, 1000, 4⟩) with queue := [⟨2000000, List.replicate 16 7⟩], streamStarted := true, expectedNextTimestamp := some 2004000, queuedDurationUs := 4000 }) (.submitEv 2004000 (List.replicate 16 7) 10300000 0) = ({ { initPlayer (some ⟨2, 1000, 4⟩) with queue := [⟨2000000, List.replicate 16 7⟩], streamStarted := true, expectedNextTimestamp := some 2004000, queuedDurationUs := 4000 } with queue := [⟨2000000, List.replicate 16 7⟩, ⟨2004000, List.replicate 16 7⟩], expectedNextTimestamp := some 2008000, queuedDurationUs := 8000, playbackState := .WAITING_FOR_START, scheduledStartLoopTimeUs := some 2004000, firstServerTimestampUs := some 2004000, earlyStartSuspect := true }, []) := by
  decide

/-- The DAC-position update of the second callback of the C1 trace. -/
theorem c1_trace_step5a : updatePlaybackPositionFromDac envId ({ { initPlayer (some ⟨2, 1000, 4⟩) with queue := [⟨2000000, List.replicate 16 7⟩], streamStarted := true, expectedNextTimestamp := some 2004000, queuedDurationUs := 4000 } with queue := [⟨2000000, List.replicate 16 7⟩, ⟨2004000, List.replicate 16 7⟩], expectedNextTimestamp := some 2008000, queuedDurationUs := 8000, playbackState := .WAITING_FOR_START, scheduledStartLoopTimeUs := some 2004000, firstServerTimestampUs := some 2004000, earlyStartSuspect := true }) 30000000 10400000 = { { { initPlayer (some ⟨2, 1000, 4⟩) with queue := [⟨2000000, List.replicate 16 7⟩], streamStarted := true, expectedNextTimestamp := some 2004000, queuedDurationUs := 4000 } with queue := [⟨2000000, List.replicate 16 7⟩, ⟨2004000, List.replicate 16 7⟩], expectedNextTimestamp := some 2008000, queuedDurationUs := 8000, playbackState := .WAITING_FOR_START, scheduledStartLoopTimeUs := some 2004000, firstServerTimestampUs := some 2004000, earlyStartSuspect := true } with dacLoopCalibrations := [(30000000, 10400000)], lastKnownPlaybackPositionUs := 10400000, lastDacCalibrationTimeUs := 10400000, scheduledStartDacTimeUs := some 21604000 } := by
  norm_num [updatePlaybackPositionFromDac, estimateDacTimeForServerTimestamp,
    estimateLoopTimeForDacTime, calibAppend, pythonRound, envId, initPlayer,
    dacPerLoopMin, dacPerLoopMax]
  exact fun h => absurd h (by simp)

/-- Fifth event of the C1 trace: playback restarts. -/
theorem c1_trace_step5 : stepEvent envId ({ { initPlayer (some ⟨2, 1000, 4⟩) with queue := [⟨2000000, List.replicate 16 7⟩], streamStarted := true, expectedNextTimestamp := some 2004000, queuedDurationUs := 4000 } with queue := [⟨2000000, List.replicate 16 7⟩, ⟨2004000, List.replicate 16 7⟩], expectedNextTimestamp := some 2008000, queuedDurationUs := 8000, playbackState := .WAITING_FOR_START, scheduledStartLoopTimeUs := some 2004000, firstServerTimestampUs := some 2004000, earlyStartSuspect := true }) (.callbackEv 2 30000000 10400000 false) = ({ { { initPlayer (some ⟨2, 1000, 4⟩) with queue := [⟨2000000, List.replicate 16 7⟩], streamStarted := true, expectedNextTimestamp := some 2004000, queuedDurationUs := 4000 } with queue := [⟨2000000, List.replicate 16 7⟩, ⟨2004000, List.replicate 16 7⟩], expectedNextTimestamp := some 2008000, queuedDurationUs := 8000, playbackState := .WAITING_FOR_START, scheduledStartLoopTimeUs := some 2004000, firstServerTimestampUs := some 2004000, earlyStartSuspect := true } with queue := [⟨2004000, List.replicate 16 7⟩], currentChunk := some ⟨2000000, List.replicate 16 7⟩, currentChunkOffset := 8, dacLoopCalibrations := [(30000000, 10400000)], lastKnownPlaybackPositionUs := 10400000, lastDacCalibrationTimeUs := 10400000, playbackState := .PLAYING, scheduledStartDacTimeUs := some 21604000, serverTsCursorUs := 2002000, lastOutputFrame := [7, 7, 7, 7] }, []) := by
  simp only [stepEvent]
  rw [audioCallbackCore_step envId _ 2 30000000 10400000 ⟨2, 1000, 4⟩ (by decide), c1_trace_step5a]
  decide

/-- Sixth event of the C1 trace: 300 ms after the first re-anchor, the same
600 ms filtered error fires a second re-anchor at loop time 10500000. -/
theorem c1_trace_step6 : stepEvent envId ({ { { initPlayer (some ⟨2, 1000, 4⟩) with queue := [⟨2000000, List.replicate 16 7⟩], streamStarted := true, expectedNextTimestamp := some 2004000, queuedDurationUs := 4000 } with queue := [⟨2000000, List.replicate 16 7⟩, ⟨2004000, List.replicate 16 7⟩], expectedNextTimestamp := some 2008000, queuedDurationUs := 8000, playbackState := .WAITING_FOR_START, scheduledStartLoopTimeUs := some 2004000, firstServerTimestampUs := some 2004000, earlyStartSuspect := true } with queue := [⟨2004000, List.replicate 16 7⟩], currentChunk := some ⟨2000000, List.replicate 16 7⟩, currentChunkOffset := 8, dacLoopCalibrations := [(30000000, 10400000)], lastKnownPlaybackPositionUs := 10400000, lastDacCalibrationTimeUs := 10400000, playbackState := .PLAYING, scheduledStartDacTimeUs := some 21604000, serverTsCursorUs := 2002000, lastOutputFrame := [7, 7, 7, 7] }) (.submitEv 2008000 (List.replicate 16 7) 10500000 600000) = ({ initPlayer (some ⟨2, 1000, 4⟩) with queue := [⟨2008000, List.replicate 16 7⟩], streamStarted := true, expectedNextTimestamp := some 2012000, queuedDurationUs := 4000 }, [10500000]) := by
  decide

/-- Claim C1 is refuted: in the six-event execution below the corrector
re-anchors at loop time 10200000 and again at 10500000, only 0.3 s apart,
because `clear` (called by the re-anchor itself) resets
`_last_reanchor_loop_time_us` to 0 and thereby disarms the 5 s cooldown. -/
theorem c1_counterexample_second_reanchor_within_5s :
    (runTrace envId (initPlayer (some ⟨2, 1000, 4⟩))
      [ .submitEv 1000000 (List.replicate 16 7) 10000000 0,
        .callbackEv 2 20000000 10100000 false,
        .submitEv 2000000 (List.replicate 16 7) 10200000 600000,
        .submitEv 2004000 (List.replicate 16 7) 10300000 0,
        .callbackEv 2 30000000 10400000 false,
        .submitEv 2008000 (List.replicate 16 7) 10500000 600000 ]).2 = [10200000, 10500000] ∧
    (10500000 - 10200000 : Int) < 5000000 := by
  refine ⟨?_, by norm_num⟩
  have hsnd : ∀ (s : AudioPlayer) (e : PlayerEvent) (rest : List PlayerEvent),
      (runTrace envId s (e :: rest)).2 =
        (stepEvent envId s e).2 ++ (runTrace envId (stepEvent envId s e).1 rest).2 :=
    fun s e rest => rfl
  have hnil : ∀ s : AudioPlayer, (runTrace envId s []).2 = [] := fun s => rfl
  rw [hsnd, c1_trace_step1]
  simp only [Prod.fst, Prod.snd]
  rw [hsnd, c1_trace_step2]
  simp only [Prod.fst, Prod.snd]
  rw [hsnd, c1_trace_step3]
  simp only [Prod.fst, Prod.snd]
  rw [hsnd, c1_trace_step4]
  simp only [Prod.fst, Prod.snd]
  rw [hsnd, c1_trace_step5]
  simp only [Prod.fst, Prod.snd]
  rw [hsnd, c1_trace_step6]
  simp only [Prod.fst, Prod.snd]
  rw [hnil]
  rfl

/-- Bumping the drop log counter keeps the schedule key. -/
theorem schedKey_update_dropLog (s : AudioPlayer) (n : Nat) :
    schedKey { s with framesDroppedSinceLog := n } = schedKey s := rfl

/-- Bumping the insert log counter keeps the schedule key. -/
theorem schedKey_update_insertLog (s : AudioPlayer) (n : Nat) :
    schedKey { s with framesInsertedSinceLog := n } = schedKey s := rfl

/-- Resetting the insert countdown keeps the schedule key. -/
theorem schedKey_update_fUI (s : AudioPlayer) (n : Int) :
    schedKey { s with framesUntilNextInsert := n } = schedKey s := rfl

/-- Resetting the drop countdown keeps the schedule key. -/
theorem schedKey_update_fUD (s : AudioPlayer) (n : Int) :
    schedKey { s with framesUntilNextDrop := n } = schedKey s := rfl

/-- Seeding the last output frame keeps the schedule key. -/
theorem schedKey_update_lastFrame (s : AudioPlayer) (l : List Nat) :
    schedKey { s with lastOutputFrame := l } = schedKey s := rfl

/-- Writing both countdowns back keeps the schedule key. -/
theorem schedKey_update_counters (s : AudioPlayer) (a b : Int) :
    schedKey { s with framesUntilNextInsert := a, framesUntilNextDrop := b } =
      schedKey s := rfl

/-- `sameSched` states include equal schedule keys. -/
theorem schedKey_of_sameSched {t s : AudioPlayer} (h : sameSched t s) :
    schedKey t = schedKey s := by
  obtain ⟨h1, h2, h3, h4, _, _⟩ := h
  simp [schedKey, h1, h2, h3, h4]

/-- One frame read keeps the schedule key. -/
theorem schedKey_readOneInputFrame (s : AudioPlayer) :
    schedKey (readOneInputFrame s).2 = schedKey s :=
  schedKey_of_sameSched (sameSched_readOneInputFrame s).1

/-- The bulk-read loop preserves the bookkeeping fields and
`_last_output_frame`. -/
theorem sameSched_readBulkLoop (fs needed : Nat) :
    ∀ (fuel : Nat) (s : AudioPlayer) (acc : List Nat),
      sameSched (readBulkLoop fuel s fs needed acc).2.2 s ∧
      (readBulkLoop fuel s fs needed acc).2.2.lastOutputFrame = s.lastOutputFrame := by
  intro fuel
  induction fuel with
  | zero => intro s acc; exact ⟨sameSched_refl s, rfl⟩
  | succ fuel ih =>
    intro s acc
    rw [readBulkLoop]
    by_cases hfull : needed ≤ acc.length
    · rw [if_pos hfull]
      exact ⟨sameSched_refl s, rfl⟩
    · rw [if_neg hfull]
      rcases hcc : s.currentChunk with _ | chunk
      · simp only [hcc]
        split_ifs with hq
        · exact ⟨sameSched_refl s, rfl⟩
        · obtain ⟨hi, hil⟩ := sameSched_initializeCurrentChunk s
          obtain ⟨hr, hrl⟩ := ih (initializeCurrentChunk s) acc
          exact ⟨sameSched_trans hr hi, hrl.trans hil⟩
      · simp only [hcc]
        have comp : ∀ t : AudioPlayer, sameSched t s → t.lastOutputFrame = s.lastOutputFrame →
            ∀ acc2 : List Nat,
            sameSched (readBulkLoop fuel t fs needed acc2).2.2 s ∧
            (readBulkLoop fuel t fs needed acc2).2.2.lastOutputFrame = s.lastOutputFrame :=
          fun t h1 h2 acc2 =>
            ⟨sameSched_trans (ih t acc2).1 h1, ((ih t acc2).2).trans h2⟩
        have hA : ∀ t : AudioPlayer, sameSched t s → t.lastOutputFrame = s.lastOutputFrame →
            sameSched (advanceFinishedChunk t) s ∧
            (advanceFinishedChunk t).lastOutputFrame = s.lastOutputFrame := fun t h1 h2 =>
          ⟨sameSched_trans (sameSched_advanceFinishedChunk t).1 h1,
           ((sameSched_advanceFinishedChunk t).2).trans h2⟩
        have hB : ∀ (t : AudioPlayer) (k : Int), sameSched t s → t.lastOutputFrame = s.lastOutputFrame →
            sameSched (advanceServerCursorFrames t k) s ∧
            (advanceServerCursorFrames t k).lastOutputFrame = s.lastOutputFrame := fun t k h1 h2 =>
          ⟨sameSched_trans (sameSched_advanceServerCursorFrames t k).1 h1,
           ((sameSched_advanceServerCursorFrames t k).2).trans h2⟩
        have hR : ∀ e : Nat, sameSched ({ s with currentChunk := some chunk, currentChunkOffset := e } : AudioPlayer) s ∧ ({ s with currentChunk := some chunk, currentChunkOffset := e } : AudioPlayer).lastOutputFrame = s.lastOutputFrame :=
          fun e => ⟨⟨rfl, rfl, rfl, rfl, rfl, rfl⟩, rfl⟩
        split_ifs
        all_goals
          first
          | exact comp _ (hA _ (hB _ _ (hR _).1 (hR _).2).1 (hB _ _ (hR _).1 (hR _).2).2).1 (hA _ (hB _ _ (hR _).1 (hR _).2).1 (hB _ _ (hR _).1 (hR _).2).2).2 _
          | exact comp _ (hB _ _ (hR _).1 (hR _).2).1 (hB _ _ (hR _).1 (hR _).2).2 _

/-- A bulk read keeps the schedule key. -/
theorem schedKey_readInputFramesBulk (s : AudioPlayer) (n : Nat) :
    schedKey (readInputFramesBulk s n).2 = schedKey s := by
  unfold readInputFramesBulk
  rcases hfm : s.format with _ | f
  · rfl
  · simp only [hfm]
    split_ifs
    all_goals
      first
      | rfl
      | exact schedKey_of_sameSched (sameSched_readBulkLoop _ _ _ _ _).1

/-- The correction loop reads the cadence settings but never writes the
schedule key. -/
theorem slowLoop_schedKey (fs insertEveryN dropEveryN : Nat) :
    ∀ (fuel : Nat) (s : AudioPlayer) (ic dc : Int) (fr : Nat) (buf : List Nat),
      schedKey (slowLoop fuel s fs insertEveryN dropEveryN ic dc fr buf).1 =
        schedKey s := by
  intro fuel
  induction fuel with
  | zero => intro s ic dc fr buf; rfl
  | succ fuel ih =>
    intro s ic dc fr buf
    rw [slowLoop]
    by_cases hfr : fr = 0
    · rw [if_pos hfr]
    · rw [if_neg hfr]
      by_cases hi : 0 < insertEveryN <;> by_cases hd : 0 < dropEveryN
      · rw [if_pos hi, if_pos hd]
        simp only []
        rcases lt_or_le 0 (ic ⊓ dc ⊓ (fr : Int)) with hseg | hseg
        · rw [if_pos hseg]
          split_ifs <;>
            simp only [ih, schedKey_update_dropLog, schedKey_update_insertLog,
              schedKey_readOneInputFrame, schedKey_readInputFramesBulk]
        · rw [if_neg (not_lt.mpr hseg)]
          split_ifs <;>
            simp only [ih, schedKey_update_dropLog, schedKey_update_insertLog,
              schedKey_readOneInputFrame, schedKey_readInputFramesBulk]
      · rw [if_pos hi, if_neg hd]
        simp only []
        rcases lt_or_le 0 (ic ⊓ ((fr : Int) + 1) ⊓ (fr : Int)) with hseg | hseg
        · rw [if_pos hseg]
          split_ifs <;>
            simp only [ih, schedKey_update_dropLog, schedKey_update_insertLog,
              schedKey_readOneInputFrame, schedKey_readInputFramesBulk]
        · rw [if_neg (not_lt.mpr hseg)]
          split_ifs <;>
            simp only [ih, schedKey_update_dropLog, schedKey_update_insertLog,
              schedKey_readOneInputFrame, schedKey_readInputFramesBulk]
      · rw [if_neg hi, if_pos hd]
        simp only []
        rcases lt_or_le 0 (((fr : Int) + 1) ⊓ dc ⊓ (fr : Int)) with hseg | hseg
        · rw [if_pos hseg]
          split_ifs <;>
            simp only [ih, schedKey_update_dropLog, schedKey_update_insertLog,
              schedKey_readOneInputFrame, schedKey_readInputFramesBulk]
        · rw [if_neg (not_lt.mpr hseg)]
          split_ifs <;>
            simp only [ih, schedKey_update_dropLog, schedKey_update_insertLog,
              schedKey_readOneInputFrame, schedKey_readInputFramesBulk]
      · rw [if_neg hi, if_neg hd]
        simp only []
        rcases lt_or_le 0 (((fr : Int) + 1) ⊓ ((fr : Int) + 1) ⊓ (fr : Int)) with hseg | hseg
        · rw [if_pos hseg]
          split_ifs <;>
            simp only [ih, schedKey_update_dropLog, schedKey_update_insertLog,
              schedKey_readOneInputFrame, schedKey_readInputFramesBulk]
        · rw [if_neg (not_lt.mpr hseg)]
          split_ifs <;>
            simp only [ih, schedKey_update_dropLog, schedKey_update_insertLog,
              schedKey_readOneInputFrame, schedKey_readInputFramesBulk]

/-- Sample emission keeps the schedule key. -/
theorem emitFrames_schedKey (s : AudioPlayer) (f : PCMFormat) (framesCnt : Nat)
    (buf : List Nat) :
    schedKey (emitFrames s f framesCnt buf).1 = schedKey s := by
  unfold emitFrames
  simp only []
  split_ifs
  all_goals
    try simp only [schedKey_update_counters, slowLoop_schedKey, schedKey_update_fUI,
      schedKey_update_fUD, schedKey_update_lastFrame, schedKey_readInputFramesBulk]
  all_goals rfl

/-- The DAC position update keeps the schedule key. -/
theorem updatePlaybackPositionFromDac_schedKey (env : TimeEnv) (s : AudioPlayer)
    (dacTimeUs nowUs : Int) :
    schedKey (updatePlaybackPositionFromDac env s dacTimeUs nowUs) = schedKey s := by
  simp only [updatePlaybackPositionFromDac]
  split_ifs <;> rfl

/-- Start gating invoked on an empty buffer writes only silence: the returned
buffer is `k` zero bytes for some `k` of at most one callback's worth, and the
byte counter equals `k`. -/
theorem handleStartGating_silence (s : AudioPlayer) (f : PCMFormat)
    (framesCnt : Nat) (dacTimeUs nowUs : Int) (hf : s.format = some f) :
    ∃ k, k ≤ framesCnt * f.frame_size ∧
      (handleStartGating s [] 0 framesCnt dacTimeUs nowUs).1 = List.replicate k 0 ∧
      (handleStartGating s [] 0 framesCnt dacTimeUs nowUs).2.1 = k := by
  unfold handleStartGating
  simp only [hf]
  rcases hgate : (if s.scheduledStartDacTimeUs.isSome ∧ 0 < dacTimeUs then
      let target := s.scheduledStartDacTimeUs.getD 0
      some (target - dacTimeUs, target, dacTimeUs, true)
    else
      match s.scheduledStartLoopTimeUs with
      | some l => some (l - nowUs, l, nowUs, false)
      | none => none) with _ | ⟨deltaUs, targetTimeUs, currentTimeUs, canDropFrames⟩
  · exact ⟨0, Nat.zero_le _, rfl, rfl⟩
  · simp only []
    split_ifs
    all_goals
      first
      | exact ⟨0, Nat.zero_le _, by simp, rfl⟩
      | exact ⟨min ((deltaUs * f.sample_rate + 999999).fdiv 1000000).toNat framesCnt * f.frame_size,
          Nat.mul_le_mul_right _ (min_le_right _ _), by simp, by simp⟩

/-- Scaling an all-zero PCM buffer returns it unchanged. -/
theorem scaleBuffer_zeros (v : Int) : ∀ n : Nat,
    scaleBuffer v (List.replicate n 0) = List.replicate n 0 := by
  have h0 : decodeI16 0 0 = 0 := by decide
  have h1 : scaleSample v 0 = 0 := by
    simp [scaleSample, truncReal]
  have h2 : encodeI16 0 = (0, 0) := by decide
  intro n
  induction n using Nat.strong_induction_on with
  | _ n ih =>
    match n with
    | 0 => rfl
    | 1 => rfl
    | n + 2 =>
      show scaleBuffer v (0 :: 0 :: List.replicate n 0) = 0 :: 0 :: List.replicate n 0
      rw [scaleBuffer, h0, h1, h2, ih n (by omega)]

/-- `_apply_volume` maps an all-zero buffer to an all-zero buffer at any
volume and mute setting. -/
theorem applyVolume_zeros (v : Int) (m : Bool) (n : Nat) :
    applyVolume v m (List.replicate n 0) = List.replicate n 0 := by
  unfold applyVolume
  split_ifs <;> simp [scaleBuffer_zeros]

/-- Claim C6: an audio callback that begins with the player in
`WAITING_FOR_START` and ends still in `WAITING_FOR_START` writes an output
buffer consisting entirely of zero bytes (one full callback of
`frames * frame_size` zeros), and the subsequent volume scaling maps that
all-zero buffer to itself, so no queued audio is emitted before the callback
observes the scheduled start time. -/
theorem c6_waiting_start_outputs_silence (env : TimeEnv) (s : AudioPlayer)
    (f : PCMFormat) (framesCnt : Nat) (dacTimeUs nowUs : Int) (v : Int) (m : Bool)
    (hf : s.format = some f)
    (hw : s.playbackState = .WAITING_FOR_START) :
    (audioCallbackCore env s framesCnt dacTimeUs nowUs false).1.playbackState =
      .WAITING_FOR_START →
    (audioCallbackCore env s framesCnt dacTimeUs nowUs false).2 =
      List.replicate (framesCnt * f.frame_size) 0 ∧
    applyVolume v m (List.replicate (framesCnt * f.frame_size) 0) =
      List.replicate (framesCnt * f.frame_size) 0 := by
  intro hret
  have hkey := updatePlaybackPositionFromDac_schedKey env s dacTimeUs nowUs
  have hf1 : (updatePlaybackPositionFromDac env s dacTimeUs nowUs).format = some f :=
    (congrArg Prod.fst hkey).trans hf
  have hp1 : (updatePlaybackPositionFromDac env s dacTimeUs nowUs).playbackState =
      .WAITING_FOR_START :=
    (congrArg (fun p => p.2.1) hkey).trans hw
  rw [audioCallbackCore_step env s framesCnt dacTimeUs nowUs f hf] at hret ⊢
  simp only [] at hret ⊢
  rw [if_pos hp1] at hret ⊢
  obtain ⟨k, hk, hg1, hg2⟩ := handleStartGating_silence
    (updatePlaybackPositionFromDac env s dacTimeUs nowUs) f framesCnt dacTimeUs nowUs hf1
  by_cases hw2 : (handleStartGating (updatePlaybackPositionFromDac env s dacTimeUs nowUs)
      [] 0 framesCnt dacTimeUs nowUs).2.2.playbackState = .WAITING_FOR_START
  · rw [if_pos hw2]
    refine ⟨?_, applyVolume_zeros v m _⟩
    simp only [hg1, hg2]
    rw [← List.replicate_add]
    have hkk : k + (framesCnt * f.frame_size - k) = framesCnt * f.frame_size := by omega
    rw [hkk]
  · rw [if_neg hw2] at hret
    exfalso
    have hkey2 := emitFrames_schedKey
      (handleStartGating (updatePlaybackPositionFromDac env s dacTimeUs nowUs)
        [] 0 framesCnt dacTimeUs nowUs).2.2 f framesCnt
      (handleStartGating (updatePlaybackPositionFromDac env s dacTimeUs nowUs)
        [] 0 framesCnt dacTimeUs nowUs).1
    have hps : (emitFrames (handleStartGating
        (updatePlaybackPositionFromDac env s dacTimeUs nowUs)
        [] 0 framesCnt dacTimeUs nowUs).2.2 f framesCnt
        (handleStartGating (updatePlaybackPositionFromDac env s dacTimeUs nowUs)
        [] 0 framesCnt dacTimeUs nowUs).1).1.playbackState =
        (handleStartGating (updatePlaybackPositionFromDac env s dacTimeUs nowUs)
        [] 0 framesCnt dacTimeUs nowUs).2.2.playbackState :=
      congrArg (fun p => p.2.1) hkey2
    rw [hps] at hret
    exact hw2 hret

/-- Witness for C6: a player waiting for a DAC-anchored start 5 s in the
future fills a 3-frame callback entirely with zeros and stays waiting. -/
theorem c6_waiting_start_outputs_silence_witness :
    (audioCallbackCore envId { initPlayer (some ⟨1, 1000, 2⟩) with playbackState := .WAITING_FOR_START, scheduledStartLoopTimeUs := some 5000000, scheduledStartDacTimeUs := some 5000000 } 3 1000 0 false).2 =
      List.replicate (3 * 2) 0 ∧
    applyVolume 50 false (List.replicate (3 * 2) 0) = List.replicate (3 * 2) 0 :=
  c6_waiting_start_outputs_silence envId
    { initPlayer (some ⟨1, 1000, 2⟩) with playbackState := .WAITING_FOR_START, scheduledStartLoopTimeUs := some 5000000, scheduledStartDacTimeUs := some 5000000 }
    ⟨1, 1000, 2⟩ 3 1000 0 50 false rfl rfl (by decide)

/-- Reading one frame strictly inside the current chunk consumes exactly one
frame of bytes and stays inside the chunk. -/
theorem readOneInputFrame_chunkStep (t : AudioPlayer) (f : PCMFormat)
    (c : QueuedChunk) (hf : t.format = some f) (hfs : 0 < f.frame_size)
    (hcc : t.currentChunk = some c)
    (hlen : t.currentChunkOffset + f.frame_size < c.audio_data.length) :
    (readOneInputFrame t).2.currentChunk = some c ∧
    (readOneInputFrame t).2.currentChunkOffset =
      t.currentChunkOffset + f.frame_size := by
  unfold readOneInputFrame
  simp only [hf]
  rw [if_neg (Nat.pos_iff_ne_zero.mp hfs)]
  rw [if_neg (by rw [hcc]; exact fun h => Option.noConfusion h)]
  simp only [hcc]
  rw [if_neg (by omega)]
  have he : min (t.currentChunkOffset + f.frame_size) c.audio_data.length =
      t.currentChunkOffset + f.frame_size := min_eq_left (by omega)
  simp only [he]
  obtain ⟨_, ac2, ac3, _⟩ := advanceServerCursorFrames_chunkFields
    { t with currentChunk := some c, currentChunkOffset := t.currentChunkOffset + f.frame_size } 1
  have hng : ¬ c.audio_data.length ≤ (advanceServerCursorFrames { t with currentChunk := some c, currentChunkOffset := t.currentChunkOffset + f.frame_size } 1).currentChunkOffset := by
    rw [ac3]
    show ¬ c.audio_data.length ≤ t.currentChunkOffset + f.frame_size
    omega
  rw [if_neg hng]
  exact ⟨ac2, ac3⟩

/-- A bulk read that fits strictly inside the current chunk returns exactly
the requested bytes, advances the offset by exactly that many bytes, stays in
the chunk, and stores one full frame in `_last_output_frame`. -/
theorem readInputFramesBulk_chunk (s : AudioPlayer) (f : PCMFormat)
    (c : QueuedChunk) (n : Nat)
    (hf : s.format = some f) (hfs : 0 < f.frame_size) (hn : 0 < n)
    (hcc : s.currentChunk = some c)
    (hlen : s.currentChunkOffset + n * f.frame_size < c.audio_data.length) :
    (readInputFramesBulk s n).1.length = n * f.frame_size ∧
    (readInputFramesBulk s n).2.currentChunk = some c ∧
    (readInputFramesBulk s n).2.currentChunkOffset =
      s.currentChunkOffset + n * f.frame_size ∧
    (readInputFramesBulk s n).2.lastOutputFrame.length = f.frame_size := by
  have hneed : 0 < n * f.frame_size := Nat.mul_pos hn hfs
  have hfsle : f.frame_size ≤ n * f.frame_size := Nat.le_mul_of_pos_left _ hn
  have hloop : ∀ m : Nat, readBulkLoop (m + 2) s f.frame_size (n * f.frame_size) [] =
      ((c.audio_data.drop s.currentChunkOffset).take (n * f.frame_size),
       n * f.frame_size,
       advanceServerCursorFrames { s with currentChunk := some c, currentChunkOffset := s.currentChunkOffset + n * f.frame_size } ((n * f.frame_size / f.frame_size : Nat) : Int)) := by
    intro m
    have hpiece : ((c.audio_data.drop s.currentChunkOffset).take (n * f.frame_size)).length =
        n * f.frame_size := by
      simp [List.length_take, List.length_drop]
      omega
    rw [show m + 2 = (m + 1) + 1 from rfl, readBulkLoop]
    rw [if_neg (by simp; omega)]
    simp only [hcc]
    have hbtr : min (c.audio_data.length - s.currentChunkOffset)
        (n * f.frame_size - ([] : List Nat).length) = n * f.frame_size := by
      simp
      omega
    simp only [hbtr]
    obtain ⟨_, ac2, ac3, _⟩ := advanceServerCursorFrames_chunkFields
      { s with currentChunk := some c, currentChunkOffset := s.currentChunkOffset + n * f.frame_size } ((n * f.frame_size / f.frame_size : Nat) : Int)
    have hng : ¬ c.audio_data.length ≤ (advanceServerCursorFrames { s with currentChunk := some c, currentChunkOffset := s.currentChunkOffset + n * f.frame_size } ((n * f.frame_size / f.frame_size : Nat) : Int)).currentChunkOffset := by
      rw [ac3]
      show ¬ c.audio_data.length ≤ s.currentChunkOffset + n * f.frame_size
      omega
    rw [if_neg hng]
    rw [readBulkLoop]
    rw [if_pos (by rw [List.nil_append, hpiece])]
    rw [List.nil_append, hpiece]
  unfold readInputFramesBulk
  simp only [hf]
  rw [if_neg (Nat.pos_iff_ne_zero.mp hn)]
  rw [show n * f.frame_size + 2 * s.queue.length + 3 =
    (n * f.frame_size + 2 * s.queue.length + 1) + 2 from rfl]
  rw [hloop]
  simp only []
  rw [if_pos hfsle]
  obtain ⟨_, ac2, ac3, _⟩ := advanceServerCursorFrames_chunkFields
    { s with currentChunk := some c, currentChunkOffset := s.currentChunkOffset + n * f.frame_size } ((n * f.frame_size / f.frame_size : Nat) : Int)
  refine ⟨?_, ac2, ac3, ?_⟩
  · simp [List.length_take, List.length_drop]
    omega
  · simp [List.length_take, List.length_drop]
    omega

/-- A bulk read preserves all bookkeeping fields (it touches only the queue
cursor and `_last_output_frame`, which is excluded from `sameSched`). -/
theorem sameSched_readInputFramesBulk (s : AudioPlayer) (n : Nat) :
    sameSched (readInputFramesBulk s n).2 s := by
  unfold readInputFramesBulk
  rcases hfm : s.format with _ | f
  · exact sameSched_refl s
  · simp only [hfm]
    split_ifs
    all_goals
      first
      | exact sameSched_refl s
      | exact sameSched_trans ⟨rfl, rfl, rfl, rfl, rfl, rfl⟩
          (sameSched_readBulkLoop _ _ _ _ _).1
      | exact (sameSched_readBulkLoop _ _ _ _ _).1

/-- The correction loop with no frames remaining returns immediately. -/
theorem slowLoop_zero (fuel : Nat) (s : AudioPlayer) (fs iN dN : Nat)
    (ic dc : Int) (buf : List Nat) :
    slowLoop fuel s fs iN dN ic dc 0 buf = (s, ic, dc, buf) := by
  cases fuel
  · rfl
  · rw [slowLoop, if_pos rfl]

/-- Claim C4, corrected: in the Playing-state slow path with drop cadence
`k > 0` (insert 0) and a full countdown, one cadence period emits `k + 1`
output frames (the `k`-frame segment plus the drop event's repeat of the
previous frame) while consuming `k + 2` input frames, increments the drop
counter once and rearms the countdown at `k`; with insert cadence `k > 0`
(drop 0) one period emits `k + 1` output frames while consuming only `k`
input frames, increments the insert counter once and rearms the countdown at
`k`.  (The spec's window of `k` outputs per event, with `k + 1` and `k - 1`
inputs respectively, does not match the code: the event frame is itself an
output and the countdown resets without counting it.) -/
theorem c4_cadence_period (s t : AudioPlayer) (f g : PCMFormat)
    (c d : QueuedChunk) (k : Nat) (ic dc : Int) (buf buf2 : List Nat)
    (hf : s.format = some f) (hfs : 0 < f.frame_size) (hk : 0 < k)
    (hcc : s.currentChunk = some c)
    (hlen : s.currentChunkOffset + (k + 2) * f.frame_size < c.audio_data.length)
    (hdropF : s.dropEveryNFrames = k)
    (hg : t.format = some g) (hgs : 0 < g.frame_size)
    (hcct : t.currentChunk = some d)
    (hlent : t.currentChunkOffset + (k + 1) * g.frame_size < d.audio_data.length)
    (hinsF : t.insertEveryNFrames = k) (hdropF0 : t.dropEveryNFrames = 0) :
    ((slowLoop (k + 2) s f.frame_size 0 k ic (k : Int) (k + 1) buf).1.framesDroppedSinceLog =
        s.framesDroppedSinceLog + 1 ∧
      (slowLoop (k + 2) s f.frame_size 0 k ic (k : Int) (k + 1) buf).1.currentChunkOffset =
        s.currentChunkOffset + (k + 2) * f.frame_size ∧
      (slowLoop (k + 2) s f.frame_size 0 k ic (k : Int) (k + 1) buf).2.2.1 = (k : Int) ∧
      (slowLoop (k + 2) s f.frame_size 0 k ic (k : Int) (k + 1) buf).2.2.2.length =
        buf.length + (k + 1) * f.frame_size) ∧
    ((slowLoop (k + 2) t g.frame_size k 0 (k : Int) dc (k + 1) buf2).1.framesInsertedSinceLog =
        t.framesInsertedSinceLog + 1 ∧
      (slowLoop (k + 2) t g.frame_size k 0 (k : Int) dc (k + 1) buf2).1.currentChunkOffset =
        t.currentChunkOffset + k * g.frame_size ∧
      (slowLoop (k + 2) t g.frame_size k 0 (k : Int) dc (k + 1) buf2).2.1 = (k : Int) ∧
      (slowLoop (k + 2) t g.frame_size k 0 (k : Int) dc (k + 1) buf2).2.2.2.length =
        buf2.length + (k + 1) * g.frame_size) := by
  constructor
  · -- Drop side.
    have h1 : (k + 2) * f.frame_size = k * f.frame_size + f.frame_size + f.frame_size := by
      ring
    have h2 : (k + 1) * f.frame_size = k * f.frame_size + f.frame_size := by ring
    have hbulk := readInputFramesBulk_chunk s f c k hf hfs hk hcc (by omega)
    have hsb := sameSched_readInputFramesBulk s k
    have hs1f : (readInputFramesBulk s k).2.format = some f := hsb.1.trans hf
    have hone1 := readOneInputFrame_chunkStep (readInputFramesBulk s k).2 f c hs1f hfs
      hbulk.2.1 (by rw [hbulk.2.2.1]; omega)
    have hso1 := sameSched_readOneInputFrame (readInputFramesBulk s k).2
    have hs2f : (readOneInputFrame (readInputFramesBulk s k).2).2.format = some f :=
      hso1.1.1.trans hs1f
    have hone2 := readOneInputFrame_chunkStep (readOneInputFrame (readInputFramesBulk s k).2).2
      f c hs2f hfs hone1.1 (by rw [hone1.2, hbulk.2.2.1]; omega)
    have hso2 := sameSched_readOneInputFrame (readOneInputFrame (readInputFramesBulk s k).2).2
    rw [show k + 2 = (k + 1) + 1 from rfl, slowLoop]
    rw [if_neg (Nat.succ_ne_zero k)]
    rw [if_neg (lt_irrefl 0), if_pos hk]
    simp only []
    have hnei : (((k + 1 : Nat) : Int) + 1) ⊓ (k : Int) ⊓ ((k + 1 : Nat) : Int) = (k : Int) := by
      push_cast
      omega
    rw [hnei]
    simp only [Int.toNat_natCast]
    rw [if_pos (show (0 : Int) < (k : Int) from by exact_mod_cast hk)]
    simp only [Nat.add_sub_cancel_left, sub_self]
    rw [if_neg one_ne_zero]
    have hdk : (readInputFramesBulk s k).2.dropEveryNFrames = k :=
      (congrArg (fun p => p.2.2.2) (schedKey_readInputFramesBulk s k)).trans hdropF
    rw [if_pos (show (0 : Int) ≤ 0 ∧ 0 < (readInputFramesBulk s k).2.dropEveryNFrames from
      ⟨le_refl 0, by rw [hdk]; exact hk⟩)]
    simp only [Nat.sub_self]
    rw [slowLoop_zero]
    refine ⟨?_, ?_, ?_, ?_⟩
    · show (readOneInputFrame (readOneInputFrame (readInputFramesBulk s k).2).2).2.framesDroppedSinceLog + 1 =
        s.framesDroppedSinceLog + 1
      rw [hso2.1.2.2.2.2.1, hso1.1.2.2.2.2.1, hsb.2.2.2.2.1]
    · show (readOneInputFrame (readOneInputFrame (readInputFramesBulk s k).2).2).2.currentChunkOffset =
        s.currentChunkOffset + (k + 2) * f.frame_size
      rw [hone2.2, hone1.2, hbulk.2.2.1]
      omega
    · show ((readOneInputFrame (readOneInputFrame (readInputFramesBulk s k).2).2).2.dropEveryNFrames : Int) =
        (k : Int)
      rw [hso2.1.2.2.2.1, hso1.1.2.2.2.1, hdk]
    · show ((buf ++ (readInputFramesBulk s k).1) ++
        (readOneInputFrame (readOneInputFrame (readInputFramesBulk s k).2).2).2.lastOutputFrame).length =
        buf.length + (k + 1) * f.frame_size
      rw [List.length_append, List.length_append, hbulk.1, hso2.2, hso1.2, hbulk.2.2.2]
      omega
  · -- Insert side.
    have h1 : (k + 1) * g.frame_size = k * g.frame_size + g.frame_size := by ring
    have hbulk := readInputFramesBulk_chunk t g d k hg hgs hk hcct (by omega)
    have hsb := sameSched_readInputFramesBulk t k
    rw [show k + 2 = (k + 1) + 1 from rfl, slowLoop]
    rw [if_neg (Nat.succ_ne_zero k)]
    rw [if_pos hk, if_neg (lt_irrefl 0)]
    simp only []
    have hnei : (k : Int) ⊓ (((k + 1 : Nat) : Int) + 1) ⊓ ((k + 1 : Nat) : Int) = (k : Int) := by
      push_cast
      omega
    rw [hnei]
    simp only [Int.toNat_natCast]
    rw [if_pos (show (0 : Int) < (k : Int) from by exact_mod_cast hk)]
    simp only [Nat.add_sub_cancel_left, sub_self]
    rw [if_neg one_ne_zero]
    have hdk0 : (readInputFramesBulk t k).2.dropEveryNFrames = 0 :=
      (congrArg (fun p => p.2.2.2) (schedKey_readInputFramesBulk t k)).trans hdropF0
    rw [if_neg (show ¬((dc - (k : Int) : Int) ≤ 0 ∧ 0 < (readInputFramesBulk t k).2.dropEveryNFrames) from
      fun h => by rw [hdk0] at h; exact absurd h.2 (lt_irrefl 0))]
    have hik : (readInputFramesBulk t k).2.insertEveryNFrames = k :=
      (congrArg (fun p => p.2.2.1) (schedKey_readInputFramesBulk t k)).trans hinsF
    rw [if_pos (show (0 : Int) ≤ 0 ∧ 0 < (readInputFramesBulk t k).2.insertEveryNFrames from
      ⟨le_refl 0, by rw [hik]; exact hk⟩)]
    simp only [Nat.sub_self]
    rw [slowLoop_zero]
    refine ⟨?_, ?_, ?_, ?_⟩
    · show (readInputFramesBulk t k).2.framesInsertedSinceLog + 1 =
        t.framesInsertedSinceLog + 1
      rw [hsb.2.2.2.2.2]
    · show (readInputFramesBulk t k).2.currentChunkOffset =
        t.currentChunkOffset + k * g.frame_size
      exact hbulk.2.2.1
    · show ((readInputFramesBulk t k).2.insertEveryNFrames : Int) = (k : Int)
      rw [hik]
    · show ((buf2 ++ (readInputFramesBulk t k).1) ++
        (readInputFramesBulk t k).2.lastOutputFrame).length =
        buf2.length + (k + 1) * g.frame_size
      rw [List.length_append, List.length_append, hbulk.1, hbulk.2.2.2]
      omega

/-- Counterexample to C4 as stated: with a freshly armed drop cadence
`k = 2`, a Playing-state slow-path window of exactly `k = 2` emitted frames
fires no drop event at all and consumes exactly `2` input frames (not one
drop and `k + 1 = 3` input frames): the first drop only fires at output
frame `k + 1`. -/
theorem c4_counterexample_k_frame_window :
    (emitFrames { initPlayer (some ⟨1, 1000, 2⟩) with playbackState := .PLAYING, dropEveryNFrames := 2, framesUntilNextDrop := 2, currentChunk := some ⟨0, List.replicate 20 7⟩ } ⟨1, 1000, 2⟩ 2 []).1.framesDroppedSinceLog = 0 ∧
    (emitFrames { initPlayer (some ⟨1, 1000, 2⟩) with playbackState := .PLAYING, dropEveryNFrames := 2, framesUntilNextDrop := 2, currentChunk := some ⟨0, List.replicate 20 7⟩ } ⟨1, 1000, 2⟩ 2 []).1.currentChunkOffset = 2 * 2 ∧
    (emitFrames { initPlayer (some ⟨1, 1000, 2⟩) with playbackState := .PLAYING, dropEveryNFrames := 2, framesUntilNextDrop := 2, currentChunk := some ⟨0, List.replicate 20 7⟩ } ⟨1, 1000, 2⟩ 2 []).2.length = 2 * 2 := by
  decide

/-- Witness for the corrected C4 at `k = 2`: one drop period emits 3 frames
and consumes 4, one insert period emits 3 frames and consumes 2. -/
theorem c4_cadence_period_witness :
    ((slowLoop (2 + 2) { initPlayer (some ⟨1, 1000, 2⟩) with currentChunk := some ⟨0, List.replicate 20 7⟩, dropEveryNFrames := 2 } 2 0 2 5 ((2 : Nat) : Int) (2 + 1) []).1.framesDroppedSinceLog = 0 + 1 ∧
      (slowLoop (2 + 2) { initPlayer (some ⟨1, 1000, 2⟩) with currentChunk := some ⟨0, List.replicate 20 7⟩, dropEveryNFrames := 2 } 2 0 2 5 ((2 : Nat) : Int) (2 + 1) []).1.currentChunkOffset = 0 + (2 + 2) * 2 ∧
      (slowLoop (2 + 2) { initPlayer (some ⟨1, 1000, 2⟩) with currentChunk := some ⟨0, List.replicate 20 7⟩, dropEveryNFrames := 2 } 2 0 2 5 ((2 : Nat) : Int) (2 + 1) []).2.2.1 = ((2 : Nat) : Int) ∧
      (slowLoop (2 + 2) { initPlayer (some ⟨1, 1000, 2⟩) with currentChunk := some ⟨0, List.replicate 20 7⟩, dropEveryNFrames := 2 } 2 0 2 5 ((2 : Nat) : Int) (2 + 1) []).2.2.2.length = 0 + (2 + 1) * 2) ∧
    ((slowLoop (2 + 2) { initPlayer (some ⟨1, 1000, 2⟩) with currentChunk := some ⟨0, List.replicate 20 7⟩, insertEveryNFrames := 2 } 2 2 0 ((2 : Nat) : Int) 7 (2 + 1) []).1.framesInsertedSinceLog = 0 + 1 ∧
      (slowLoop (2 + 2) { initPlayer (some ⟨1, 1000, 2⟩) with currentChunk := some ⟨0, List.replicate 20 7⟩, insertEveryNFrames := 2 } 2 2 0 ((2 : Nat) : Int) 7 (2 + 1) []).1.currentChunkOffset = 0 + 2 * 2 ∧
      (slowLoop (2 + 2) { initPlayer (some ⟨1, 1000, 2⟩) with currentChunk := some ⟨0, List.replicate 20 7⟩, insertEveryNFrames := 2 } 2 2 0 ((2 : Nat) : Int) 7 (2 + 1) []).2.1 = ((2 : Nat) : Int) ∧
      (slowLoop (2 + 2) { initPlayer (some ⟨1, 1000, 2⟩) with currentChunk := some ⟨0, List.replicate 20 7⟩, insertEveryNFrames := 2 } 2 2 0 ((2 : Nat) : Int) 7 (2 + 1) []).2.2.2.length = 0 + (2 + 1) * 2) :=
  c4_cadence_period
    { initPlayer (some ⟨1, 1000, 2⟩) with currentChunk := some ⟨0, List.replicate 20 7⟩, dropEveryNFrames := 2 }
    { initPlayer (some ⟨1, 1000, 2⟩) with currentChunk := some ⟨0, List.replicate 20 7⟩, insertEveryNFrames := 2 }
    ⟨1, 1000, 2⟩ ⟨1, 1000, 2⟩ ⟨0, List.replicate 20 7⟩ ⟨0, List.replicate 20 7⟩ 2 5 7 [] []
    rfl (by decide) (by decide) rfl (by decide) rfl rfl (by decide) rfl (by decide) rfl rfl
